import Mathlib

/-!
Verification development for the ZetaSQL resolved-AST rewrite driver
(`zetasql/analyzer/rewrite_resolved_ast.cc`) and the NULLIFERROR function
rewriter (`zetasql/analyzer/rewriters/nulliferror_function_rewriter.cc`).

The driver is embedded shallowly: the resolved AST is an abstract type
parameter `Tree`; external collaborators (the rewrite registry, the
relevance checker `FindRelevantRewriters`, the validator, the error-location
conversion) are fields of an environment record `Env`.  The driver's
mutations of the analyzer output (C++ pass-by-reference) are made explicit
by threading a state record `LoopSt` and returning it together with the
status, so that the state at an error return is observable, exactly as the
C++ caller observes the (mutated) `AnalyzerOutput` when the driver fails.
Wall-clock durations are not modelled; every timer is modelled by the
number of times it accumulated, which is what the driver's control flow
determines.
-/

namespace ZetaSqlRewrite

/-- Status codes of `absl::Status`, restricted to the codes this driver can
produce.  `internal` stands for `ZETASQL_RET_CHECK` failures. -/
inductive StatusCode where
  | resourceExhausted
  | internal
  | unimplemented
  | other
deriving DecidableEq, Repr

/-- An `absl::Status` error: a code plus a message. -/
structure Err where
  code : StatusCode
  msg : String
deriving DecidableEq, Repr

/-- `absl::Status`: ok or an error. -/
abbrev Status := Except Err Unit

/-- `ResolvedASTRewrite`: an enumerated rule tag (`options.pb.h`), embedded
as a natural number. -/
abbrev Rule := Nat

/-- The distinguished `REWRITE_ANONYMIZATION` tag (the concrete numeral is
irrelevant; only its identity matters). -/
def REWRITE_ANONYMIZATION : Rule := 2

/-- `kMaxIterations` from `rewrite_resolved_ast.cc` (line 225). -/
def kMaxIterations : Nat := 25

/-- The resource-exhaustion message built at lines 231-233 of
`rewrite_resolved_ast.cc`. -/
def maxIterationsMessage : String :=
  "Query exceeded configured maximum number of rewriter iterations (" ++
    toString kMaxIterations ++ ") without converging."

/-- Modelled from the spec: `zetasql_base::SequenceNumber`
(`zetasql/base/atomic_sequence_num.h`, not under `src/`): a monotonically
increasing counter whose `GetNext` hands out the current value and
advances by one.  A sequence is embedded as the value `GetNext` would
return next.

`advanceSeq seq maxId` is the loop at lines 124-126 of
`rewrite_resolved_ast.cc`:
`while (fallback_sequence_number.GetNext() < analyzer_output.max_column_id()) {}`
Each round draws `seq` (advancing the state to `seq + 1`) and keeps looping
while the drawn value is strictly less than `maxId`.  The result is the
state of the sequence after the loop. -/
def advanceSeq (seq maxId : Nat) : Nat :=
  if seq < maxId then advanceSeq (seq + 1) maxId else seq + 1
termination_by maxId - seq

/-- The advancement loop as the claim C3 words it: "repeatedly draw and
discard until the drawn value is strictly greater than the current max".
Kept for comparison with `advanceSeq`; this is translated from the claim,
not from the source. -/
def advanceSeqClaim (seq maxId : Nat) : Nat :=
  if maxId < seq then seq + 1 else advanceSeqClaim (seq + 1) maxId
termination_by maxId + 1 - seq

/-- `AnalyzerOutputProperties`: the mutable output-properties bag.  It
carries the resolver-detected relevance set (`relevant_rewrites`); the
remaining engine-specific mutable contents are abstracted into `scratch`,
which rewriters may overwrite. -/
structure OutputProperties where
  relevant_rewrites : Finset Rule
  scratch : Nat
deriving DecidableEq

/-- `AnalyzerRuntimeInfo::RewriterDetails`: per-rule invocation count and
timer.  The timer is modelled by its number of accumulations. -/
structure RewriterDetails where
  count : Nat
  timer_accumulations : Nat
deriving DecidableEq, Repr

/-- `AnalyzerRuntimeInfo`: per-rule details plus the overall rewriter and
validator timers (modelled by accumulation counts). -/
structure RuntimeInfo where
  rewriters_details : Rule → RewriterDetails
  rewriters_timed_accums : Nat
  validator_timed_accums : Nat

/-- `AnalyzerOutput`: root (exactly one of statement/expression per the
documented invariant), arenas, `max_column_id`, properties, runtime info. -/
structure AnalyzerOutput (Tree : Type) where
  resolved_statement : Option Tree
  resolved_expr : Option Tree
  max_column_id : Nat
  arena : Nat
  id_string_pool : Nat
  output_properties : OutputProperties
  runtime_info : RuntimeInfo

/-- The option fields of the per-rewrite `AnalyzerOptions` bundle that are
visible to rewriters (the fields `AnalyzerOptionsForRewrite` overrides,
plus the arenas it re-targets). -/
structure RewriteOptionsView where
  name_resolution_strict : Bool
  with_expression_feature : Bool
  allow_undeclared_parameters : Bool
  parameter_named : Bool
  statement_context_default : Bool
  arena : Nat
  id_string_pool : Nat
  expression_columns : List Nat
deriving DecidableEq, Repr

/-- The per-rewrite options bundle returned by `AnalyzerOptionsForRewrite`:
the rewriter-visible view, which column-id sequence it points at
(the caller's own or the driver's fallback), and the copied
`validate_resolved_ast` internal option. -/
structure OptionsForRewrite where
  view : RewriteOptionsView
  seqExternal : Bool
  validate_resolved_ast : Bool
deriving DecidableEq, Repr

/-- A rewriter (`Rewriter::Rewrite`): consumes the current root (possibly
null), may mutate the output properties, draws column ids from the
options' sequence (passed and returned as its state), and produces a new
root or an error.  A returned `none` root models the C++ contract
violation of returning `nullptr`. -/
def Rewriter (Tree : Type) : Type :=
  RewriteOptionsView → Option Tree → OutputProperties → Nat →
    Except Err (Option Tree × OutputProperties × Nat)

/-- `AnalyzerOptions` as the driver consumes it.  `owns_column_id_sequence`
is `column_id_sequence_number() != nullptr`;
the external sequence's state itself is threaded through the driver
separately (it is caller-owned storage). -/
structure AnalyzerOptions (Tree : Type) where
  enabled_rewrites : Finset Rule
  leading_rewriters : List (Rewriter Tree)
  trailing_rewriters : List (Rewriter Tree)
  owns_column_id_sequence : Bool
  error_message_mode : Nat
  attach_error_location_payload : Bool
  fields_accessed_legacy : Bool
  validate_resolved_ast : Bool
  pre_rewrite_callback : Option (AnalyzerOutput Tree → Status)
  name_resolution_strict : Bool
  with_expression_feature : Bool
  allow_undeclared_parameters : Bool
  parameter_named : Bool
  statement_context_default : Bool
  arena : Nat
  id_string_pool : Nat
  expression_columns : List Nat

/-- One rewriter invocation, as recorded for observation: a built-in rule
applied inside the convergence loop, or a user-supplied leading/trailing
rewriter. -/
inductive Event where
  | builtin (r : Rule)
  | userLeading
  | userTrailing
deriving DecidableEq, Repr

/-- The driver's mutable state: the analyzer output (C++ mutates it in
place), the caller-owned external sequence state, the local fallback
sequence, the lazily created options bundle, the released "current tree"
slot (`last_rewrite_result`), and the log of rewriter invocations. -/
structure LoopSt (Tree : Type) where
  output : AnalyzerOutput Tree
  externalSeq : Nat
  fallbackSeq : Nat
  opts : Option OptionsForRewrite
  last : Option Tree
  trace : List Event

/-- The driver's external collaborators and process-level toggles:
the global rewrite registry, `FindRelevantRewriters`, the
`--zetasql_disable_rewriter_checker` flag, `ZETASQL_DEBUG_MODE`, the node
kind discriminator used when re-installing the root, the validator, and
the error-message adjustment underlying the error-location conversion. -/
structure Env (Tree : Type) where
  registrationOrder : List Rule
  registryGet : Rule → Option (Rewriter Tree)
  findRelevantRewriters : Option Tree → Except Err (Finset Rule)
  disableRewriterChecker : Bool
  debugMode : Bool
  isStatement : Tree → Bool
  validateStatement : Tree → Status
  validateExpr : Tree → Status
  adjustError : Nat → Bool → String → Err → Err

section Driver

variable {Tree : Type}

/-- `NodeFromAnalyzerOutput` (lines 63-68): the statement if present, else
the expression. -/
def nodeFromAnalyzerOutput (out : AnalyzerOutput Tree) : Option Tree :=
  match out.resolved_statement with
  | some t => some t
  | none => out.resolved_expr

/-- Modelled from the spec: `AnalyzerOutputMutator::release_output_node`
(`zetasql/analyzer/analyzer_output_mutator.h`, not under `src/`):
transfers root ownership out of the output, leaving the released slot
empty. -/
def releaseOutputNode (out : AnalyzerOutput Tree) :
    Option Tree × AnalyzerOutput Tree :=
  match out.resolved_statement with
  | some t => (some t, { out with resolved_statement := none })
  | none => (out.resolved_expr, { out with resolved_expr := none })

/-- `AnalyzerOptionsForRewrite` (lines 74-131): deep-copy the base options,
force strict name resolution, enable the WITH-expression feature, force
named parameters in the default statement context, re-target the arenas to
the output's, clear the expression columns, and select the column-id
sequence: the caller's own if it has one, otherwise the fallback sequence
advanced past `max_column_id`.  Returns the bundle and the new fallback
sequence state. -/
def analyzerOptionsForRewrite (base : AnalyzerOptions Tree)
    (out : AnalyzerOutput Tree) (fallbackSeq : Nat) :
    OptionsForRewrite × Nat :=
  let view : RewriteOptionsView :=
    { name_resolution_strict := true
      with_expression_feature := true
      allow_undeclared_parameters := false
      parameter_named := true
      statement_context_default := true
      arena := out.arena
      id_string_pool := out.id_string_pool
      expression_columns := [] }
  if base.owns_column_id_sequence then
    ({ view := view, seqExternal := true
       validate_resolved_ast := base.validate_resolved_ast }, fallbackSeq)
  else
    ({ view := view, seqExternal := false
       validate_resolved_ast := base.validate_resolved_ast },
     advanceSeq fallbackSeq out.max_column_id)

/-- Lazy initialization of the options bundle and the current-tree slot
(lines 206-210, 241-245, 298-302): on first need, build the per-rewrite
options and release the output's root into `last_rewrite_result`. -/
def ensureInit (base : AnalyzerOptions Tree) (st : LoopSt Tree) :
    LoopSt Tree :=
  match st.opts with
  | some _ => st
  | none =>
    let p := analyzerOptionsForRewrite base st.output st.fallbackSeq
    let q := releaseOutputNode st.output
    { st with opts := some p.1, fallbackSeq := p.2, last := q.1,
              output := q.2 }

/-- One `rewriter->Rewrite(...)` call: hand the rewriter the options view,
the current tree, the output properties and the selected sequence's state;
on success install its new root, properties and sequence state.  The
invocation is logged in the trace whether or not it succeeds. -/
def invokeRewriter (rw : Rewriter Tree) (ev : Event) (st : LoopSt Tree) :
    Status × LoopSt Tree :=
  match st.opts with
  | none => (.error ⟨.internal, "options for rewrite not initialized"⟩, st)
  | some o =>
    let seqVal := if o.seqExternal then st.externalSeq else st.fallbackSeq
    match rw o.view st.last st.output.output_properties seqVal with
    | .error e => (.error e, { st with trace := st.trace ++ [ev] })
    | .ok r =>
      (.ok (),
       { st with
         last := r.1
         output := { st.output with output_properties := r.2.1 }
         externalSeq := if o.seqExternal then r.2.2 else st.externalSeq
         fallbackSeq := if o.seqExternal then st.fallbackSeq else r.2.2
         trace := st.trace ++ [ev] })

/-- Increment `runtime_info.rewriters_details(r).count` (line 256). -/
def bumpRuleCount (st : LoopSt Tree) (r : Rule) : LoopSt Tree :=
  { st with output :=
    { st.output with runtime_info :=
      { st.output.runtime_info with rewriters_details := fun r' =>
        if r' = r then
          { st.output.runtime_info.rewriters_details r' with
            count := (st.output.runtime_info.rewriters_details r').count + 1 }
        else st.output.runtime_info.rewriters_details r' } } }

/-- One accumulation of the per-rule scoped timer (lines 254-255); in C++
it fires when the scope ends, on success and error paths alike. -/
def bumpRuleTimer (st : LoopSt Tree) (r : Rule) : LoopSt Tree :=
  { st with output :=
    { st.output with runtime_info :=
      { st.output.runtime_info with rewriters_details := fun r' =>
        if r' = r then
          { st.output.runtime_info.rewriters_details r' with
            timer_accumulations :=
              (st.output.runtime_info.rewriters_details r').timer_accumulations
                + 1 }
        else st.output.runtime_info.rewriters_details r' } } }

/-- One accumulation of the whole-driver rewriter timer
(lines 184, 199, 293). -/
def bumpOverallTimer (st : LoopSt Tree) : LoopSt Tree :=
  { st with output :=
    { st.output with runtime_info :=
      { st.output.runtime_info with rewriters_timed_accums :=
          st.output.runtime_info.rewriters_timed_accums + 1 } } }

/-- One accumulation of the validator's scoped timer (lines 316-317). -/
def bumpValidatorTimer (st : LoopSt Tree) : LoopSt Tree :=
  { st with output :=
    { st.output with runtime_info :=
      { st.output.runtime_info with validator_timed_accums :=
          st.output.runtime_info.validator_timed_accums + 1 } } }

/-- The two loops over user-supplied (non-built-in) rewriters
(lines 203-216 for leading, 295-308 for trailing): each rewriter runs
once, after lazily initializing the options bundle and the current-tree
slot; errors abort the pass. -/
def runUserRewriters (base : AnalyzerOptions Tree) (ev : Event) :
    List (Rewriter Tree) → LoopSt Tree → Status × LoopSt Tree
  | [], st => (.ok (), st)
  | rw :: rest, st =>
    let st := ensureInit base st
    let p := invokeRewriter rw ev st
    match p.1 with
    | .error e => (.error e, p.2)
    | .ok _ => runUserRewriters base ev rest p.2

/-- One sweep of the convergence loop (lines 235-277): walk the registry's
registration order; for each rule in the apply-set, lazily initialize,
look the rewriter up (absence is a `RET_CHECK`), bump its count, invoke
it under its scoped timer (which accumulates on every exit path), and
`RET_CHECK` that it returned a non-null root. -/
def runSweep (env : Env Tree) (base : AnalyzerOptions Tree)
    (applySet : Finset Rule) :
    List Rule → LoopSt Tree → Status × LoopSt Tree
  | [], st => (.ok (), st)
  | r :: rest, st =>
    if r ∈ applySet then
      let st := ensureInit base st
      match env.registryGet r with
      | none =>
        (.error ⟨.internal,
          "Requested rewriter was not present in the registry"⟩, st)
      | some rw =>
        let st := bumpRuleCount st r
        let p := invokeRewriter rw (.builtin r) st
        let st := bumpRuleTimer p.2 r
        match p.1 with
        | .error e => (.error e, st)
        | .ok _ =>
          if st.last.isNone then
            (.error ⟨.internal, "Rewriter returned nullptr on input"⟩, st)
          else runSweep env base applySet rest st
    else runSweep env base applySet rest st

/-- The convergence loop (lines 226-291).  The source counts iterations
upward and fails when the count exceeds `kMaxIterations` before a sweep;
here the remaining allowance is counted downward from `kMaxIterations`
(failing at zero), which is the same bound and keeps the recursion
structural.  Each round: sweep, then recompute the apply-set as
`enabled_rewrites` intersected with `FindRelevantRewriters` of the current
tree, unconditionally erase `REWRITE_ANONYMIZATION`, and repeat while the
set is non-empty. -/
def runLoopAux (env : Env Tree) (base : AnalyzerOptions Tree) :
    Nat → Finset Rule → LoopSt Tree → Status × LoopSt Tree
  | 0, _, st => (.error ⟨.resourceExhausted, maxIterationsMessage⟩, st)
  | remaining + 1, applySet, st =>
    let p := runSweep env base applySet env.registrationOrder st
    match p.1 with
    | .error e => (.error e, p.2)
    | .ok _ =>
      match env.findRelevantRewriters p.2.last with
      | .error e => (.error e, p.2)
      | .ok checker =>
        let next :=
          (base.enabled_rewrites ∩ checker).erase REWRITE_ANONYMIZATION
        if next = ∅ then (.ok (), p.2)
        else runLoopAux env base remaining next p.2

/-- Relevance synchronization (lines 160-179): compute the checker's set
when `ZETASQL_DEBUG_MODE` or the disable-checker flag is off; in debug
mode with a non-empty resolver set, `RET_CHECK` that the two sets agree;
the detected set is the resolver's when the flag is set, else the
checker's (which stays empty when never computed). -/
def detectStage (env : Env Tree) (resolverDetected : Finset Rule)
    (input : Option Tree) : Except Err (Finset Rule) :=
  if env.debugMode || !env.disableRewriterChecker then
    match env.findRelevantRewriters input with
    | .error e => .error e
    | .ok checker =>
      if env.debugMode ∧ resolverDetected ≠ ∅ ∧ resolverDetected ≠ checker
      then .error ⟨.internal, "resolver and checker rewrite detection differ"⟩
      else .ok (if env.disableRewriterChecker then resolverDetected
                else checker)
  else
    .ok (if env.disableRewriterChecker then resolverDetected
         else (∅ : Finset Rule))

/-- Modelled from the spec: `AnalyzerOutputMutator::Update`
(`zetasql/analyzer/analyzer_output_mutator.h`, not under `src/`):
re-installs the root into the output (into the slot matching the node's
statement/expression kind) and records the column-id sequence's final
value as `max_column_id`; a missing root cannot be re-installed. -/
def updateOutput (env : Env Tree) (out : AnalyzerOutput Tree)
    (root : Option Tree) (seqVal : Nat) :
    Status × AnalyzerOutput Tree :=
  match root with
  | none => (.error ⟨.internal, "cannot install missing output node"⟩, out)
  | some t =>
    if env.isStatement t then
      (.ok (), { out with resolved_statement := some t,
                          max_column_id := seqVal })
    else
      (.ok (), { out with resolved_expr := some t,
                          max_column_id := seqVal })

/-- The final `ZETASQL_RET_CHECK` (lines 340-341): at least one of the
statement and expression roots is present. -/
def finalCheck (st : LoopSt Tree) : Status × LoopSt Tree :=
  if st.output.resolved_statement.isSome || st.output.resolved_expr.isSome
  then (.ok (), st)
  else (.error ⟨.internal, "expected statement or expression"⟩, st)

/-- The post-validation steps (lines 332-342): in legacy fields-accessed
mode the installed root is traversed and its fields marked accessed — a
mutation of access bookkeeping only, which this model does not represent —
then the final root-presence `RET_CHECK` runs. -/
def markFieldsAndCheck (base : AnalyzerOptions Tree) (st : LoopSt Tree) :
    Status × LoopSt Tree :=
  if base.fields_accessed_legacy then finalCheck st else finalCheck st

/-- Installation and validation (lines 310-342): if the options bundle was
ever created, install the final tree with the sequence's current value;
then, if `validate_resolved_ast` is on, validate the statement or the
standalone expression under the validator's scoped timer; then the
fields-accessed sweep and the final root-presence check. -/
def finishStage (env : Env Tree) (base : AnalyzerOptions Tree)
    (st : LoopSt Tree) : Status × LoopSt Tree :=
  match st.opts with
  | none => markFieldsAndCheck base st
  | some o =>
    let seqVal := if o.seqExternal then st.externalSeq else st.fallbackSeq
    let p := updateOutput env st.output st.last seqVal
    match p.1 with
    | .error e => (.error e, { st with output := p.2 })
    | .ok _ =>
      let st := { st with output := p.2 }
      if o.validate_resolved_ast then
        let st := bumpValidatorTimer st
        match st.output.resolved_statement with
        | some t =>
          match env.validateStatement t with
          | .error e => (.error e, st)
          | .ok _ => markFieldsAndCheck base st
        | none =>
          match st.output.resolved_expr with
          | none =>
            (.error ⟨.internal, "expected statement or expression"⟩, st)
          | some t =>
            match env.validateExpr t with
            | .error e => (.error e, st)
            | .ok _ => markFieldsAndCheck base st
      else markFieldsAndCheck base st

/-- The driver's steps after the convergence loop (lines 293-342):
accumulate the overall rewriter timer, run the trailing user rewriters,
then install/validate/check. -/
def driverTail (env : Env Tree) (base : AnalyzerOptions Tree)
    (st : LoopSt Tree) : Status × LoopSt Tree :=
  let st := bumpOverallTimer st
  let w := runUserRewriters base .userTrailing base.trailing_rewriters st
  match w.1 with
  | .error e => (.error e, w.2)
  | .ok _ => finishStage env base w.2

/-- The driver state at entry: the output as given, the external sequence
as given, a fresh fallback sequence, no options bundle, no released tree,
no invocations yet. -/
def initLoopSt (out : AnalyzerOutput Tree) (externalSeq : Nat) :
    LoopSt Tree :=
  { output := out, externalSeq := externalSeq, fallbackSeq := 0,
    opts := none, last := none, trace := [] }

/-- `InternalRewriteResolvedAstNoConvertErrorLocation` (lines 136-343):
check the root is present, synchronize relevance detection, take the two
early exits when nothing is to be done, run the leading user rewriters,
the convergence loop (when the initial apply-set is non-empty), accumulate
the overall timer, run the trailing user rewriters, and finish with
install/validate/check. -/
def internalRewriteResolvedAstNoConvertErrorLocation (env : Env Tree)
    (base : AnalyzerOptions Tree) (out : AnalyzerOutput Tree)
    (externalSeq : Nat) : Status × LoopSt Tree :=
  let st0 := initLoopSt out externalSeq
  if (nodeFromAnalyzerOutput out).isNone then
    (.error ⟨.internal, "expected a resolved node"⟩, st0)
  else
    match detectStage env out.output_properties.relevant_rewrites
        (nodeFromAnalyzerOutput out) with
    | .error e => (.error e, st0)
    | .ok detected =>
      if decide (detected = ∅) && base.leading_rewriters.isEmpty &&
          base.trailing_rewriters.isEmpty then
        (.ok (), bumpOverallTimer st0)
      else
        let rewritesToApply := base.enabled_rewrites ∩ detected
        if decide (rewritesToApply = ∅) && base.leading_rewriters.isEmpty &&
            base.trailing_rewriters.isEmpty then
          (.ok (), bumpOverallTimer st0)
        else
          let p := runUserRewriters base .userLeading
            base.leading_rewriters st0
          match p.1 with
          | .error e => (.error e, p.2)
          | .ok _ =>
            let q :=
              if rewritesToApply = ∅ then (.ok (), p.2)
              else runLoopAux env base kMaxIterations rewritesToApply p.2
            match q.1 with
            | .error e => (.error e, q.2)
            | .ok _ => driverTail env base q.2

/-- Modelled from the spec:
`ConvertInternalErrorLocationAndAdjustErrorString` (`zetasql/common/errors.h`,
not under `src/`): the error-location conversion layer, driven by the
error message mode and the attach-payload flag with the SQL text as
context; it wraps the driver's status, adjusting errors and passing ok
through. -/
def convertErrorLocation (env : Env Tree) (mode : Nat) (payload : Bool)
    (sql : String) : Status → Status
  | .ok _ => .ok ()
  | .error e => .error (env.adjustError mode payload sql e)

/-- The entry point past the pre-rewrite callback (lines 355-365): return
success with no work when no rewrites are enabled or the output has no
root; otherwise run the driver and route its status through the
error-location conversion. -/
def internalRewriteResolvedAstAfterCallback (env : Env Tree)
    (base : AnalyzerOptions Tree) (sql : String) (out : AnalyzerOutput Tree)
    (externalSeq : Nat) : Status × LoopSt Tree :=
  if decide (base.enabled_rewrites = ∅) ||
      (out.resolved_statement.isNone && out.resolved_expr.isNone) then
    (.ok (), initLoopSt out externalSeq)
  else
    let p := internalRewriteResolvedAstNoConvertErrorLocation env base out
      externalSeq
    (convertErrorLocation env base.error_message_mode
      base.attach_error_location_payload sql p.1, p.2)

/-- `InternalRewriteResolvedAst` (lines 347-366): invoke the pre-rewrite
callback first and propagate its error (without conversion), then the
early-success checks, then the driver wrapped in error-location
conversion. -/
def internalRewriteResolvedAst (env : Env Tree)
    (base : AnalyzerOptions Tree) (sql : String) (out : AnalyzerOutput Tree)
    (externalSeq : Nat) : Status × LoopSt Tree :=
  match base.pre_rewrite_callback with
  | some cb =>
    match cb out with
    | .error e => (.error e, initLoopSt out externalSeq)
    | .ok _ => internalRewriteResolvedAstAfterCallback env base sql out
        externalSeq
  | none => internalRewriteResolvedAstAfterCallback env base sql out
      externalSeq

/-- The number of built-in invocations of rule `r` recorded in a trace. -/
def countBuiltinInvocations (tr : List Event) (r : Rule) : Nat :=
  tr.countP fun e =>
    match e with
    | .builtin r' => r' == r
    | _ => false

end Driver

/-!
Embedding of the NULLIFERROR function rewriter
(`zetasql/analyzer/rewriters/nulliferror_function_rewriter.cc`) over a
small resolved-expression AST carrying the node shapes the rewriter
observes: function calls (built-in flag, function id, hint list, argument
list, result type), literals (type, null-ness, `has_explicit_type`), and
column references. -/

/-- A resolved type, abstracted to a tag. -/
inductive SqlType where
  | int64
  | boolean
  | str
  | other (n : Nat)
deriving DecidableEq, Repr

/-- `FunctionSignatureId FN_NULLIFERROR` (the concrete numeral is
irrelevant; only its identity matters). -/
def FN_NULLIFERROR : Nat := 317

/-- `FunctionSignatureId FN_IFERROR`. -/
def FN_IFERROR : Nat := 318

/-- The resolved-expression nodes the NULLIFERROR rewriter observes.
Hints are opaque tags; only the hint list's size matters to the
rewriter. -/
inductive ResolvedExpr where
  | functionCall (is_builtin : Bool) (function_id : Nat)
      (hint_list : List Nat) (argument_list : List ResolvedExpr)
      (type : SqlType)
  | literal (type : SqlType) (is_null : Bool) (has_explicit_type : Bool)
  | columnRef (column_id : Nat) (type : SqlType)

/-- The value type of an expression node. -/
def exprType : ResolvedExpr → SqlType
  | .functionCall _ _ _ _ ty => ty
  | .literal ty _ _ => ty
  | .columnRef _ ty => ty

/-- Modelled from the spec: `IsBuiltInFunctionIdEq`
(`zetasql/resolved_ast/rewrite_utils.h`, not under `src/`): whether the
node is a call to the built-in function with the given signature id. -/
def isBuiltInFunctionIdEq (node : ResolvedExpr) (fid : Nat) : Bool :=
  match node with
  | .functionCall is_builtin function_id _ _ _ =>
    is_builtin && function_id == fid
  | _ => false

/-- The node's hint-list size (`hint_list_size()`); zero for nodes
without hints. -/
def hintListSize : ResolvedExpr → Nat
  | .functionCall _ _ hint_list _ _ => hint_list.length
  | _ => 0

/-- Modelled from the spec: `FunctionCallBuilder::IfError`
(`zetasql/resolved_ast/rewrite_utils.h`, not under `src/`): builds the
built-in call `IFERROR(tryExpr, handleExpr)`, typed like its first
argument. -/
def ifErrorCall (tryExpr handleExpr : ResolvedExpr) : ResolvedExpr :=
  .functionCall true FN_IFERROR [] [tryExpr, handleExpr] (exprType tryExpr)

/-- `RewriteNullIfError` (lines 80-97): `RET_CHECK` the call has exactly
one argument `x`, build a NULL literal of `x`'s type with
`has_explicit_type`, and return `IFERROR(x, NULL)`. -/
def rewriteNullIfError (node : ResolvedExpr) : Except Err ResolvedExpr :=
  match node with
  | .functionCall _ _ _ argument_list _ =>
    match argument_list with
    | [try_expr] =>
      .ok (ifErrorCall try_expr (.literal (exprType try_expr) true true))
    | _ =>
      .error ⟨.internal, "NULLIFERROR should have 1 expression argument."⟩
  | _ => .error ⟨.internal, "expected a function call"⟩

/-- `PostVisitResolvedFunctionCall` (lines 67-78): calls that are not
built-in NULLIFERROR pass through unchanged; a NULLIFERROR call with
hints is unimplemented; otherwise rewrite it. -/
def postVisitResolvedFunctionCall (node : ResolvedExpr) :
    Except Err ResolvedExpr :=
  if isBuiltInFunctionIdEq node FN_NULLIFERROR = false then .ok node
  else if hintListSize node > 0 then
    .error ⟨.unimplemented,
      "The NULLIFERROR() operator does not support hints."⟩
  else rewriteNullIfError node

mutual

/-- `ResolvedASTRewriteVisitor::VisitAll` specialized to this visitor:
post-order traversal rewriting children first, then applying
`PostVisitResolvedFunctionCall` to function calls; all other node kinds
use the default identity post-visit. -/
def visitAll : ResolvedExpr → Except Err ResolvedExpr
  | .functionCall is_builtin function_id hint_list argument_list ty =>
    match visitAllList argument_list with
    | .error e => .error e
    | .ok args =>
      postVisitResolvedFunctionCall
        (.functionCall is_builtin function_id hint_list args ty)
  | .literal ty is_null has_explicit_type =>
    .ok (.literal ty is_null has_explicit_type)
  | .columnRef column_id ty => .ok (.columnRef column_id ty)

/-- Post-order traversal of an argument list. -/
def visitAllList : List ResolvedExpr → Except Err (List ResolvedExpr)
  | [] => .ok []
  | e :: rest =>
    match visitAll e with
    | .error er => .error er
    | .ok e' =>
      match visitAllList rest with
      | .error er => .error er
      | .ok rest' => .ok (e' :: rest')

end

mutual

/-- Whether a built-in NULLIFERROR call occurs anywhere in the tree. -/
def containsNullIfError : ResolvedExpr → Bool
  | .functionCall is_builtin function_id _ argument_list _ =>
    (is_builtin && function_id == FN_NULLIFERROR) ||
      containsNullIfErrorList argument_list
  | .literal _ _ _ => false
  | .columnRef _ _ => false

/-- Whether a built-in NULLIFERROR call occurs in any list element. -/
def containsNullIfErrorList : List ResolvedExpr → Bool
  | [] => false
  | e :: rest => containsNullIfError e || containsNullIfErrorList rest

end

/-!
Concrete instantiations (over `Tree := Nat`) used by the witnesses and
counterexamples below. -/

/-- A rewriter that always returns the fixed root `n`. -/
def constRewriter (n : Nat) : Rewriter Nat :=
  fun _ _ props seq => .ok (some n, props, seq)

/-- Zeroed runtime info. -/
def rtInfo0 : RuntimeInfo :=
  { rewriters_details := fun _ => ⟨0, 0⟩
    rewriters_timed_accums := 0
    validator_timed_accums := 0 }

/-- Output properties with an empty resolver-detected set. -/
def props0 : OutputProperties := ⟨∅, 0⟩

/-- A statement output with root `10`. -/
def out10 : AnalyzerOutput Nat :=
  { resolved_statement := some 10, resolved_expr := none,
    max_column_id := 0, arena := 0, id_string_pool := 0,
    output_properties := props0, runtime_info := rtInfo0 }

/-- A base environment: one registered rule `1` rewriting everything to
root `7`, a checker that always reports rule `1` relevant, release-mode,
checker enabled. -/
def envBase : Env Nat :=
  { registrationOrder := [1]
    registryGet := fun r => if r = 1 then some (constRewriter 7) else none
    findRelevantRewriters := fun _ => .ok {1}
    disableRewriterChecker := false
    debugMode := false
    isStatement := fun _ => true
    validateStatement := fun _ => .ok ()
    validateExpr := fun _ => .ok ()
    adjustError := fun _ _ _ e => e }

/-- Base analyzer options: rule `1` enabled, no user rewriters, no owned
column-id sequence, no callback, validation and legacy modes off. -/
def optsBase : AnalyzerOptions Nat :=
  { enabled_rewrites := {1}
    leading_rewriters := []
    trailing_rewriters := []
    owns_column_id_sequence := false
    error_message_mode := 0
    attach_error_location_payload := false
    fields_accessed_legacy := false
    validate_resolved_ast := false
    pre_rewrite_callback := none
    name_resolution_strict := false
    with_expression_feature := false
    allow_undeclared_parameters := true
    parameter_named := false
    statement_context_default := true
    arena := 0
    id_string_pool := 0
    expression_columns := [] }

/-- A SQL text to instantiate the top-level entry with. -/
def sampleSql : String := "SELECT NULLIFERROR(x) FROM t"

/-- `out10` with `max_column_id` raised to 1. -/
def out10mc1 : AnalyzerOutput Nat := { out10 with max_column_id := 1 }

/-- Options that own a caller-side column-id sequence. -/
def optsOwnSeq : AnalyzerOptions Nat :=
  { optsBase with owns_column_id_sequence := true }

/-- Options with no enabled rewrites. -/
def optsNone : AnalyzerOptions Nat :=
  { optsBase with enabled_rewrites := ∅ }

/-- An environment whose checker reports only rule `3`, disjoint from the
enabled set `{1}` of `optsBase`. -/
def envDisjoint : Env Nat :=
  { envBase with findRelevantRewriters := fun _ => .ok {3} }

/-- A checker function reporting rule `1` relevant exactly on root `10`. -/
def findOn10 (x : Option Nat) : Except Err (Finset Rule) :=
  if x = some 10 then .ok {1} else .ok (∅ : Finset Rule)

/-- An environment whose checker reports rule `1` relevant exactly on the
initial root `10`: the single registered rewrite (to root `7`) converges
in one sweep. -/
def envConverge : Env Nat :=
  { envBase with findRelevantRewriters := findOn10 }

/-- A checker function reporting rule `1` relevant on roots `10` and
`99`. -/
def findOn10or99 (x : Option Nat) : Except Err (Finset Rule) :=
  if x = some 10 ∨ x = some 99 then .ok {1} else .ok (∅ : Finset Rule)

/-- An environment whose checker reports rule `1` relevant on the initial
root `10` and on root `99` (the root produced by the trailing user
rewriter of `optsTrail`). -/
def envTrail : Env Nat :=
  { envBase with findRelevantRewriters := findOn10or99 }

/-- Options with one trailing user rewriter producing root `99`. -/
def optsTrail : AnalyzerOptions Nat :=
  { optsBase with trailing_rewriters := [constRewriter 99] }

/-- A concrete pre-rewrite callback error. -/
def cbErr : Err := ⟨.other, "pre-rewrite callback failed"⟩

/-- An environment whose error-location conversion visibly changes the
message of every error it converts. -/
def envConv : Env Nat :=
  { envBase with adjustError := fun _ _ _ e =>
      ⟨e.code, "converted: " ++ e.msg⟩ }

/-- Options whose pre-rewrite callback always fails with `cbErr`. -/
def optsCb : AnalyzerOptions Nat :=
  { optsBase with pre_rewrite_callback := some (fun _ => .error cbErr) }

/-- Debug-mode variant of the base environment. -/
def envDbg : Env Nat := { envBase with debugMode := true }

/-- Base environment with the disable-checker flag set. -/
def envDis : Env Nat := { envBase with disableRewriterChecker := true }

/-- Debug mode with the disable-checker flag set. -/
def envDisDbg : Env Nat :=
  { envBase with disableRewriterChecker := true, debugMode := true }

/-- A column reference used as the NULLIFERROR argument. -/
def colX : ResolvedExpr := .columnRef 3 .int64

/-- `NULLIFERROR(x)` without hints. -/
def nieCall : ResolvedExpr :=
  .functionCall true FN_NULLIFERROR [] [colX] .int64

/-- `NULLIFERROR(x)` carrying one hint. -/
def nieHintCall : ResolvedExpr :=
  .functionCall true FN_NULLIFERROR [7] [colX] .int64

/-- A built-in call that is not NULLIFERROR. -/
def otherCall : ResolvedExpr := .functionCall true 5 [] [] .int64

section Predicates

variable {Tree : Type}

/-- The analyzer-output data-model invariant (spec section 3): exactly one
of the statement and expression roots is present. -/
def exactlyOneRoot (out : AnalyzerOutput Tree) : Prop :=
  (out.resolved_statement ≠ none ∧ out.resolved_expr = none) ∨
  (out.resolved_statement = none ∧ out.resolved_expr ≠ none)

/-- The driver's root-slot invariant relative to the output it was entered
with: before the lazy initialization the slots are untouched; after it
(options bundle present) the root has been released and both slots are
empty, until the final install. -/
def SlotsInv (out0 : AnalyzerOutput Tree) (st : LoopSt Tree) : Prop :=
  (st.opts = none ∧
     st.output.resolved_statement = out0.resolved_statement ∧
     st.output.resolved_expr = out0.resolved_expr) ∨
  (st.opts ≠ none ∧
     st.output.resolved_statement = none ∧
     st.output.resolved_expr = none)

/-- Bookkeeping relation between two driver states: per rule, the
invocation count and the timer-accumulation count each advance by exactly
the number of built-in invocations of that rule logged between the two
traces. -/
def DetailsRel (st st' : LoopSt Tree) : Prop :=
  ∀ r : Rule,
    (st'.output.runtime_info.rewriters_details r).count +
        countBuiltinInvocations st.trace r =
      (st.output.runtime_info.rewriters_details r).count +
        countBuiltinInvocations st'.trace r ∧
    (st'.output.runtime_info.rewriters_details r).timer_accumulations +
        countBuiltinInvocations st.trace r =
      (st.output.runtime_info.rewriters_details r).timer_accumulations +
        countBuiltinInvocations st'.trace r

end Predicates

section SeqLemmas

/-- Closed form of the advancement loop: it stops having consumed every
value up to and including the first drawn value that is not below
`maxId`, leaving the sequence at `max seq maxId + 1`. -/
theorem advanceSeq_eq (seq maxId : Nat) :
    advanceSeq seq maxId = max seq maxId + 1 := by
  unfold advanceSeq
  split
  · rw [advanceSeq_eq (seq + 1) maxId]
    omega
  · omega
termination_by maxId - seq

/-- Closed form of the claim-worded advancement loop: it consumes every
value up to and including the first drawn value strictly above `maxId`. -/
theorem advanceSeqClaim_eq (seq maxId : Nat) :
    advanceSeqClaim seq maxId = max seq (maxId + 1) + 1 := by
  unfold advanceSeqClaim
  split
  · omega
  · rw [advanceSeqClaim_eq (seq + 1) maxId]
    omega
termination_by maxId + 1 - seq

end SeqLemmas

section ClaimC3

/-- C3 counterexample: with no caller-owned sequence, a fresh fallback
sequence (next value 0) and `max_column_id = 1`, the code's advancement
loop (stop at the first drawn value that is not strictly less than the
max) leaves the sequence at 2, whereas advancing "until the drawn value
is strictly greater than `max_column_id`", as the claim words it, would
leave it at 3. -/
theorem c3_advance_counterexample :
    (analyzerOptionsForRewrite optsBase out10mc1 0).2 ≠
      advanceSeqClaim 0 out10mc1.max_column_id := by
  have h : (analyzerOptionsForRewrite optsBase out10mc1 0).2 =
      advanceSeq 0 out10mc1.max_column_id := rfl
  rw [h, advanceSeq_eq, advanceSeqClaim_eq]
  decide

/-- C3 (amended): when the base options own a column-id sequence, the
per-rewrite options reuse it and the fallback sequence is untouched;
otherwise the fallback sequence is adopted after being advanced by
repeatedly drawing and discarding values while the drawn value is
strictly less than `output.max_column_id` (stopping at the first drawn
value that is at least the max, not strictly greater than it), so that
the next value handed out exceeds `max_column_id`. -/
theorem c3_column_id_sequence_selection {Tree : Type}
    (base : AnalyzerOptions Tree) (out : AnalyzerOutput Tree) (fb : Nat) :
    (base.owns_column_id_sequence = true →
      (analyzerOptionsForRewrite base out fb).1.seqExternal = true ∧
      (analyzerOptionsForRewrite base out fb).2 = fb) ∧
    (base.owns_column_id_sequence = false →
      (analyzerOptionsForRewrite base out fb).1.seqExternal = false ∧
      (analyzerOptionsForRewrite base out fb).2 =
        advanceSeq fb out.max_column_id ∧
      out.max_column_id < (analyzerOptionsForRewrite base out fb).2) := by
  constructor
  · intro h
    simp [analyzerOptionsForRewrite, h]
  · intro h
    simp [analyzerOptionsForRewrite, h, advanceSeq_eq]
    omega

/-- C3 witness: both branches of `c3_column_id_sequence_selection`
instantiated at concrete inputs. -/
theorem c3_column_id_sequence_selection_witness :
    ((analyzerOptionsForRewrite optsOwnSeq out10 5).1.seqExternal = true ∧
      (analyzerOptionsForRewrite optsOwnSeq out10 5).2 = 5) ∧
    ((analyzerOptionsForRewrite optsBase out10mc1 0).1.seqExternal = false ∧
      (analyzerOptionsForRewrite optsBase out10mc1 0).2 =
        advanceSeq 0 out10mc1.max_column_id ∧
      out10mc1.max_column_id <
        (analyzerOptionsForRewrite optsBase out10mc1 0).2) :=
  ⟨(c3_column_id_sequence_selection optsOwnSeq out10 5).1 rfl,
   (c3_column_id_sequence_selection optsBase out10mc1 0).2 rfl⟩

end ClaimC3

section ClaimC5

/-- C5: relevance synchronization.  (i) In debug mode, when the checker
runs and the resolver's set is non-empty and differs from the checker's,
the stage fails with the fatal internal error.  (ii) When the
disable-checker flag is off, the detected set is the checker's set
(provided the debug cross-check does not fire).  (iii) When the flag is
set, the checker is still computed in debug mode but the detected set is
the resolver's.  (iv) When the flag is set and debug assertions are off,
the detected set is the resolver's and the checker function is never
consulted: the result is the same for any two checker functions. -/
theorem c5_relevance_synchronization {Tree : Type} (env : Env Tree)
    (resolver : Finset Rule) (input : Option Tree) (S : Finset Rule) :
    (env.debugMode = true → env.findRelevantRewriters input = .ok S →
      resolver ≠ ∅ → resolver ≠ S →
      detectStage env resolver input =
        .error ⟨.internal,
          "resolver and checker rewrite detection differ"⟩) ∧
    (env.disableRewriterChecker = false →
      env.findRelevantRewriters input = .ok S →
      (env.debugMode = false ∨ resolver = ∅ ∨ resolver = S) →
      detectStage env resolver input = .ok S) ∧
    (env.disableRewriterChecker = true → env.debugMode = true →
      env.findRelevantRewriters input = .ok S →
      (resolver = ∅ ∨ resolver = S) →
      detectStage env resolver input = .ok resolver) ∧
    (∀ f g : Option Tree → Except Err (Finset Rule),
      env.disableRewriterChecker = true → env.debugMode = false →
      detectStage { env with findRelevantRewriters := f } resolver input
          = .ok resolver ∧
      detectStage { env with findRelevantRewriters := f } resolver input
          = detectStage { env with findRelevantRewriters := g } resolver
              input) := by
  refine ⟨?_, ?_, ?_, ?_⟩
  · intro hdbg hfind hne hneS
    simp [detectStage, hdbg, hfind, hne, hneS]
  · intro hdis hfind hside
    rcases hside with h | h | h <;>
      simp [detectStage, hdis, hfind, h]
  · intro hdis hdbg hfind hside
    rcases hside with h | h <;>
      simp [detectStage, hdis, hdbg, hfind, h]
  · intro f g hdis hdbg
    constructor <;> simp [detectStage, hdis, hdbg]

/-- C5 witness: the four parts of `c5_relevance_synchronization`
instantiated at concrete inputs. -/
theorem c5_relevance_synchronization_witness :
    (detectStage envDbg {2} (some 10) =
      .error ⟨.internal,
        "resolver and checker rewrite detection differ"⟩) ∧
    (detectStage envBase (∅ : Finset Rule) (some 10) = .ok {1}) ∧
    (detectStage envDisDbg {1} (some 10) = .ok {1}) ∧
    (detectStage { envDis with
        findRelevantRewriters := envBase.findRelevantRewriters } {4}
        (some 10) = .ok {4}) :=
  ⟨(c5_relevance_synchronization envDbg {2} (some 10) {1}).1 rfl rfl
      (by decide) (by decide),
   (c5_relevance_synchronization envBase ∅ (some 10) {1}).2.1 rfl rfl
      (Or.inl rfl),
   (c5_relevance_synchronization envDisDbg {1} (some 10) {1}).2.2.1 rfl rfl
      rfl (Or.inr rfl),
   ((c5_relevance_synchronization envDis {4} (some 10) {1}).2.2.2
      envBase.findRelevantRewriters envBase.findRelevantRewriters rfl
      rfl).1⟩

end ClaimC5

section ClaimC9

/-- A successful post-visit of a function call whose arguments are free of
NULLIFERROR produces a node free of NULLIFERROR. -/
theorem postVisit_preserves_clean (b : Bool) (f : Nat) (h : List Nat)
    (args : List ResolvedExpr) (ty : SqlType)
    (hargs : containsNullIfErrorList args = false) (e' : ResolvedExpr)
    (hv : postVisitResolvedFunctionCall (.functionCall b f h args ty) =
      .ok e') :
    containsNullIfError e' = false := by
  unfold postVisitResolvedFunctionCall at hv
  by_cases hb :
      isBuiltInFunctionIdEq (.functionCall b f h args ty) FN_NULLIFERROR
        = false
  · rw [if_pos hb] at hv
    cases hv
    simp only [isBuiltInFunctionIdEq] at hb
    simp [containsNullIfError, hb, hargs]
  · rw [if_neg hb] at hv
    by_cases hh : hintListSize (.functionCall b f h args ty) > 0
    · rw [if_pos hh] at hv
      exact absurd hv (by simp)
    · rw [if_neg hh] at hv
      unfold rewriteNullIfError at hv
      match args, hargs with
      | [x], hargs =>
        simp only [] at hv
        cases hv
        simp only [containsNullIfErrorList, Bool.or_eq_false_iff] at hargs
        simp [ifErrorCall, containsNullIfError, containsNullIfErrorList,
          FN_IFERROR, FN_NULLIFERROR, hargs.1]
      | [], hargs => simp at hv
      | x :: y :: rest, hargs => simp at hv

mutual

/-- A successful `visitAll` leaves no NULLIFERROR node in the result. -/
theorem visitAll_clean :
    ∀ e e' : ResolvedExpr, visitAll e = .ok e' →
      containsNullIfError e' = false
  | .functionCall b f h args ty, e', hv => by
    rw [visitAll] at hv
    cases hl : visitAllList args with
    | error er => rw [hl] at hv; exact absurd hv (by simp)
    | ok args' =>
      rw [hl] at hv
      exact postVisit_preserves_clean b f h args' ty
        (visitAllList_clean args args' hl) e' hv
  | .literal ty n ex, e', hv => by
    rw [visitAll] at hv
    cases hv
    simp [containsNullIfError]
  | .columnRef c ty, e', hv => by
    rw [visitAll] at hv
    cases hv
    simp [containsNullIfError]

/-- A successful `visitAllList` leaves no NULLIFERROR node in any
element. -/
theorem visitAllList_clean :
    ∀ l l' : List ResolvedExpr, visitAllList l = .ok l' →
      containsNullIfErrorList l' = false
  | [], l', hv => by
    rw [visitAllList] at hv
    cases hv
    simp [containsNullIfErrorList]
  | e :: rest, l', hv => by
    rw [visitAllList] at hv
    cases he : visitAll e with
    | error er => rw [he] at hv; exact absurd hv (by simp)
    | ok e' =>
      rw [he] at hv
      cases hrest : visitAllList rest with
      | error er => rw [hrest] at hv; exact absurd hv (by simp)
      | ok rest' =>
        rw [hrest] at hv
        cases hv
        simp [containsNullIfErrorList, visitAll_clean e e' he,
          visitAllList_clean rest rest' hrest]

end

/-- C9: the NULLIFERROR rewriter's node-level behavior and its global
effect.  (i) Function calls that are not built-in NULLIFERROR pass
through `PostVisitResolvedFunctionCall` unchanged.  (ii) A built-in
NULLIFERROR call carrying hints is rejected with an unimplemented error.
(iii) A hint-free built-in NULLIFERROR call with single argument `x` is
replaced by `IFERROR(x, L)` where `L` is a NULL literal of `x`'s type
with `has_explicit_type` set.  (iv) Whenever the whole post-order
traversal succeeds, the resulting tree contains no built-in NULLIFERROR
node. -/
theorem c9_nulliferror_rewriter :
    (∀ node : ResolvedExpr,
      isBuiltInFunctionIdEq node FN_NULLIFERROR = false →
      postVisitResolvedFunctionCall node = .ok node) ∧
    (∀ node : ResolvedExpr,
      isBuiltInFunctionIdEq node FN_NULLIFERROR = true →
      0 < hintListSize node →
      postVisitResolvedFunctionCall node =
        .error ⟨.unimplemented,
          "The NULLIFERROR() operator does not support hints."⟩) ∧
    (∀ (x : ResolvedExpr) (ty : SqlType),
      postVisitResolvedFunctionCall
          (.functionCall true FN_NULLIFERROR [] [x] ty) =
        .ok (ifErrorCall x (.literal (exprType x) true true))) ∧
    (∀ e e' : ResolvedExpr, visitAll e = .ok e' →
      containsNullIfError e' = false) := by
  refine ⟨?_, ?_, ?_, visitAll_clean⟩
  · intro node hb
    unfold postVisitResolvedFunctionCall
    rw [if_pos hb]
  · intro node hb hh
    unfold postVisitResolvedFunctionCall
    rw [if_neg (by simp [hb]), if_pos hh]
  · intro x ty
    unfold postVisitResolvedFunctionCall
    rw [if_neg (by simp [isBuiltInFunctionIdEq])]
    rw [if_neg (by simp [hintListSize])]
    rfl

/-- C9 witness: the four parts of `c9_nulliferror_rewriter` instantiated
at concrete nodes. -/
theorem c9_nulliferror_rewriter_witness :
    (postVisitResolvedFunctionCall otherCall = .ok otherCall) ∧
    (postVisitResolvedFunctionCall nieHintCall =
      .error ⟨.unimplemented,
        "The NULLIFERROR() operator does not support hints."⟩) ∧
    (postVisitResolvedFunctionCall
        (.functionCall true FN_NULLIFERROR [] [colX] .int64) =
      .ok (ifErrorCall colX (.literal (exprType colX) true true))) ∧
    (containsNullIfError (ifErrorCall colX
        (.literal (exprType colX) true true)) = false) :=
  ⟨c9_nulliferror_rewriter.1 otherCall (by decide),
   c9_nulliferror_rewriter.2.1 nieHintCall (by decide) (by decide),
   c9_nulliferror_rewriter.2.2.1 colX .int64,
   c9_nulliferror_rewriter.2.2.2 nieCall
     (ifErrorCall colX (.literal (exprType colX) true true))
     (by simp [nieCall, visitAll, visitAllList, colX,
       postVisitResolvedFunctionCall, isBuiltInFunctionIdEq, hintListSize,
       rewriteNullIfError, ifErrorCall, exprType])⟩

end ClaimC9

section ClaimC8

/-- C8: at entry the pre-rewrite callback (when set) runs first and its
error is propagated; then, when no rewrites are enabled or the output has
no root, the driver returns success with the state untouched (no
rewriting work: output unchanged, no invocations). -/
theorem c8_entry_preconditions {Tree : Type} (env : Env Tree)
    (base : AnalyzerOptions Tree) (sql : String) (out : AnalyzerOutput Tree)
    (extSeq : Nat) :
    (∀ cb e, base.pre_rewrite_callback = some cb → cb out = .error e →
      internalRewriteResolvedAst env base sql out extSeq =
        (.error e, initLoopSt out extSeq)) ∧
    ((base.pre_rewrite_callback = none ∨
        ∃ cb, base.pre_rewrite_callback = some cb ∧ cb out = .ok ()) →
      (base.enabled_rewrites = ∅ ∨
        (out.resolved_statement = none ∧ out.resolved_expr = none)) →
      internalRewriteResolvedAst env base sql out extSeq =
        (.ok (), initLoopSt out extSeq) ∧
      (initLoopSt out extSeq).output = out ∧
      (initLoopSt out extSeq).trace = ([] : List Event)) := by
  constructor
  · intro cb e hcb herr
    simp [internalRewriteResolvedAst, hcb, herr]
  · intro hcb hempty
    have hafter : internalRewriteResolvedAstAfterCallback env base sql out
        extSeq = (.ok (), initLoopSt out extSeq) := by
      rcases hempty with h | h
      · simp [internalRewriteResolvedAstAfterCallback, h]
      · simp [internalRewriteResolvedAstAfterCallback, h.1, h.2]
    refine ⟨?_, rfl, rfl⟩
    rcases hcb with h | ⟨cb, hc, hok⟩
    · simp [internalRewriteResolvedAst, h, hafter]
    · simp [internalRewriteResolvedAst, hc, hok, hafter]

/-- C8 witness: a failing callback's error is returned as-is, and with no
enabled rewrites the driver returns success leaving the state untouched. -/
theorem c8_entry_preconditions_witness :
    (internalRewriteResolvedAst envBase optsCb sampleSql out10 0 =
      (.error cbErr, initLoopSt out10 0)) ∧
    (internalRewriteResolvedAst envBase optsNone sampleSql out10 0 =
      (.ok (), initLoopSt out10 0)) :=
  ⟨(c8_entry_preconditions envBase optsCb sampleSql out10 0).1
      (fun _ => .error cbErr) cbErr rfl rfl,
   ((c8_entry_preconditions envBase optsNone sampleSql out10 0).2
      (Or.inl rfl) (Or.inl rfl)).1⟩

end ClaimC8

section ClaimC4

/-- C4 counterexample: a pre-rewrite callback error is returned from the
top-level entry point untouched, even though the environment's
error-location conversion visibly rewrites every error message it is
given — so callback errors are not passed through the conversion layer. -/
theorem c4_conversion_counterexample :
    (internalRewriteResolvedAst envConv optsCb sampleSql out10 0).1 =
      .error cbErr ∧
    envConv.adjustError optsCb.error_message_mode
      optsCb.attach_error_location_payload sampleSql cbErr ≠ cbErr := by
  constructor
  · rfl
  · decide

/-- C4 (amended): past the precondition checks, the driver's status is
returned through the error-location conversion layer driven by
`error_message_mode` and `attach_error_location_payload` with `sql_text`
as context — uniformly for all errors produced inside
`InternalRewriteResolvedAstNoConvertErrorLocation` (rewriter errors, the
resource-exhaustion error, validator errors, internal errors); the
pre-rewrite callback's error, however, is propagated before and without
conversion. -/
theorem c4_error_location_conversion {Tree : Type} (env : Env Tree)
    (base : AnalyzerOptions Tree) (sql : String) (out : AnalyzerOutput Tree)
    (extSeq : Nat) :
    (∀ cb e, base.pre_rewrite_callback = some cb → cb out = .error e →
      internalRewriteResolvedAst env base sql out extSeq =
        (.error e, initLoopSt out extSeq)) ∧
    ((base.pre_rewrite_callback = none ∨
        ∃ cb, base.pre_rewrite_callback = some cb ∧ cb out = .ok ()) →
      base.enabled_rewrites ≠ ∅ →
      ¬(out.resolved_statement = none ∧ out.resolved_expr = none) →
      internalRewriteResolvedAst env base sql out extSeq =
        (convertErrorLocation env base.error_message_mode
          base.attach_error_location_payload sql
          (internalRewriteResolvedAstNoConvertErrorLocation env base out
            extSeq).1,
         (internalRewriteResolvedAstNoConvertErrorLocation env base out
            extSeq).2)) ∧
    (∀ (e : Err) (m : Nat) (p : Bool) (s : String),
      convertErrorLocation env m p s (.error e) =
        .error (env.adjustError m p s e)) ∧
    (∀ (m : Nat) (p : Bool) (s : String),
      convertErrorLocation env m p s (.ok ()) = .ok ()) := by
  refine ⟨?_, ?_, fun e m p s => rfl, fun m p s => rfl⟩
  · intro cb e hcb herr
    simp [internalRewriteResolvedAst, hcb, herr]
  · intro hcb hne hroot
    have hafter : internalRewriteResolvedAstAfterCallback env base sql out
        extSeq =
        (convertErrorLocation env base.error_message_mode
          base.attach_error_location_payload sql
          (internalRewriteResolvedAstNoConvertErrorLocation env base out
            extSeq).1,
         (internalRewriteResolvedAstNoConvertErrorLocation env base out
            extSeq).2) := by
      cases hs : out.resolved_statement with
      | some t => simp [internalRewriteResolvedAstAfterCallback, hne, hs]
      | none =>
        cases he : out.resolved_expr with
        | some t => simp [internalRewriteResolvedAstAfterCallback, hne, hs, he]
        | none => exact absurd ⟨hs, he⟩ hroot
    rcases hcb with h | ⟨cb, hc, hok⟩
    · simp [internalRewriteResolvedAst, h, hafter]
    · simp [internalRewriteResolvedAst, hc, hok, hafter]

/-- C4 witness: a run with no callback, enabled rewrites and a present
root returns exactly the conversion-wrapped driver status, and the
conversion is driven by the adjustment on errors and passes ok through. -/
theorem c4_error_location_conversion_witness :
    (internalRewriteResolvedAst envConv optsBase sampleSql out10 0 =
      (convertErrorLocation envConv optsBase.error_message_mode
        optsBase.attach_error_location_payload sampleSql
        (internalRewriteResolvedAstNoConvertErrorLocation envConv optsBase
          out10 0).1,
       (internalRewriteResolvedAstNoConvertErrorLocation envConv optsBase
          out10 0).2)) ∧
    (convertErrorLocation envConv 0 false sampleSql (.error cbErr) =
      .error (envConv.adjustError 0 false sampleSql cbErr)) ∧
    (convertErrorLocation envConv 0 false sampleSql (.ok ()) = .ok ()) :=
  ⟨(c4_error_location_conversion envConv optsBase sampleSql out10 0).2.1
      (Or.inl rfl) (by decide) (by simp [out10]),
   (c4_error_location_conversion envConv optsBase sampleSql out10 0).2.2.1
      cbErr 0 false sampleSql,
   (c4_error_location_conversion envConv optsBase sampleSql out10 0).2.2.2
      0 false sampleSql⟩

end ClaimC4

section ClaimC6

/-- C6: when the enabled set does not intersect the detected set and both
user-rewriter lists are empty, the driver succeeds without invoking any
rewriter, and the tree, `max_column_id` and output-properties are exactly
the input's (only the overall rewriter timer accumulates). -/
theorem c6_early_exit {Tree : Type} (env : Env Tree)
    (base : AnalyzerOptions Tree) (out : AnalyzerOutput Tree) (extSeq : Nat)
    (t0 : Tree) (D : Finset Rule)
    (hroot : nodeFromAnalyzerOutput out = some t0)
    (hdet : detectStage env out.output_properties.relevant_rewrites
      (nodeFromAnalyzerOutput out) = .ok D)
    (hint : base.enabled_rewrites ∩ D = ∅)
    (hlead : base.leading_rewriters = [])
    (htrail : base.trailing_rewriters = []) :
    (internalRewriteResolvedAstNoConvertErrorLocation env base out
        extSeq).1 = .ok () ∧
    (internalRewriteResolvedAstNoConvertErrorLocation env base out
        extSeq).2.output.resolved_statement = out.resolved_statement ∧
    (internalRewriteResolvedAstNoConvertErrorLocation env base out
        extSeq).2.output.resolved_expr = out.resolved_expr ∧
    (internalRewriteResolvedAstNoConvertErrorLocation env base out
        extSeq).2.output.max_column_id = out.max_column_id ∧
    (internalRewriteResolvedAstNoConvertErrorLocation env base out
        extSeq).2.output.output_properties = out.output_properties ∧
    (internalRewriteResolvedAstNoConvertErrorLocation env base out
        extSeq).2.trace = ([] : List Event) := by
  rw [hroot] at hdet
  by_cases hD : D = ∅ <;>
    simp [internalRewriteResolvedAstNoConvertErrorLocation, hroot, hdet,
      hlead, htrail, hD, hint, bumpOverallTimer, initLoopSt]

/-- C6 witness: `c6_early_exit` at a concrete run whose checker reports
only rule `3` while only rule `1` is enabled. -/
theorem c6_early_exit_witness :
    (internalRewriteResolvedAstNoConvertErrorLocation envDisjoint optsBase
        out10 0).1 = .ok () ∧
    (internalRewriteResolvedAstNoConvertErrorLocation envDisjoint optsBase
        out10 0).2.output.resolved_statement = out10.resolved_statement ∧
    (internalRewriteResolvedAstNoConvertErrorLocation envDisjoint optsBase
        out10 0).2.output.resolved_expr = out10.resolved_expr ∧
    (internalRewriteResolvedAstNoConvertErrorLocation envDisjoint optsBase
        out10 0).2.output.max_column_id = out10.max_column_id ∧
    (internalRewriteResolvedAstNoConvertErrorLocation envDisjoint optsBase
        out10 0).2.output.output_properties = out10.output_properties ∧
    (internalRewriteResolvedAstNoConvertErrorLocation envDisjoint optsBase
        out10 0).2.trace = ([] : List Event) :=
  c6_early_exit envDisjoint optsBase out10 0 10 {3} rfl rfl (by decide)
    rfl rfl

end ClaimC6

section InvariantLemmas

variable {Tree : Type}

/-- Releasing the root never touches the runtime info. -/
theorem releaseOutputNode_runtime_info (out : AnalyzerOutput Tree) :
    (releaseOutputNode out).2.runtime_info = out.runtime_info := by
  unfold releaseOutputNode
  cases out.resolved_statement <;> rfl

/-- Releasing the root never touches the output properties. -/
theorem releaseOutputNode_output_properties (out : AnalyzerOutput Tree) :
    (releaseOutputNode out).2.output_properties = out.output_properties := by
  unfold releaseOutputNode
  cases out.resolved_statement <;> rfl

/-- Releasing the root of an output with exactly one root empties both
slots. -/
theorem releaseOutputNode_clears (out : AnalyzerOutput Tree)
    (hxor : exactlyOneRoot out) :
    (releaseOutputNode out).2.resolved_statement = none ∧
    (releaseOutputNode out).2.resolved_expr = none := by
  unfold releaseOutputNode
  rcases hxor with ⟨h1, h2⟩ | ⟨h1, h2⟩
  · cases hs : out.resolved_statement with
    | none => exact absurd hs h1
    | some t => simp [h2]
  · simp [h1]

/-- `ensureInit` always leaves the options bundle present. -/
theorem ensureInit_opts (base : AnalyzerOptions Tree) (st : LoopSt Tree) :
    (ensureInit base st).opts ≠ none := by
  unfold ensureInit
  cases hst : st.opts <;> simp [hst]

/-- A state whose options, statement slot and expression slot agree with
a state satisfying the slot invariant satisfies it too. -/
theorem slotsInv_frame {out0 : AnalyzerOutput Tree} {st st' : LoopSt Tree}
    (h : SlotsInv out0 st)
    (ho : st'.opts = st.opts)
    (hs : st'.output.resolved_statement = st.output.resolved_statement)
    (he : st'.output.resolved_expr = st.output.resolved_expr) :
    SlotsInv out0 st' := by
  rcases h with ⟨h1, h2, h3⟩ | ⟨h1, h2, h3⟩
  · exact Or.inl ⟨ho.trans h1, hs.trans h2, he.trans h3⟩
  · exact Or.inr ⟨by rw [ho]; exact h1, hs.trans h2, he.trans h3⟩

/-- Lazy initialization preserves the slot invariant (on inputs with
exactly one root): it either does nothing or releases the root, leaving
both slots empty with the options bundle present. -/
theorem slots_ensureInit (base : AnalyzerOptions Tree)
    {out0 : AnalyzerOutput Tree} (st : LoopSt Tree)
    (hxor : exactlyOneRoot out0) (h : SlotsInv out0 st) :
    SlotsInv out0 (ensureInit base st) := by
  unfold ensureInit
  cases hst : st.opts with
  | some o => exact h
  | none =>
    rcases h with ⟨_, hs, he⟩ | ⟨hopts, _, _⟩
    · right
      have hx : exactlyOneRoot st.output := by
        rcases hxor with ⟨h1, h2⟩ | ⟨h1, h2⟩
        · exact Or.inl ⟨by rw [hs]; exact h1, by rw [he]; exact h2⟩
        · exact Or.inr ⟨by rw [hs]; exact h1, by rw [he]; exact h2⟩
      have hc := releaseOutputNode_clears st.output hx
      exact ⟨by simp, hc.1, hc.2⟩
    · exact absurd hst hopts

/-- Invoking a rewriter preserves the slot invariant: it touches only the
current-tree slot, the output properties, the sequences and the trace. -/
theorem slots_invoke {out0 : AnalyzerOutput Tree} (rw : Rewriter Tree)
    (ev : Event) (st : LoopSt Tree) (h : SlotsInv out0 st) :
    SlotsInv out0 (invokeRewriter rw ev st).2 := by
  rcases hst : st.opts with _ | o
  · simp only [invokeRewriter, hst]
    exact h
  · simp only [invokeRewriter, hst]
    cases hr : rw o.view st.last st.output.output_properties
        (if o.seqExternal = true then st.externalSeq else st.fallbackSeq) with
    | error e =>
      simp only [hr]
      exact slotsInv_frame h (by rw [hst]) rfl rfl
    | ok r =>
      simp only [hr]
      exact slotsInv_frame h (by rw [hst]) rfl rfl

/-- The per-rule count bump preserves the slot invariant. -/
theorem slots_bumpRuleCount {out0 : AnalyzerOutput Tree}
    (st : LoopSt Tree) (r : Rule) (h : SlotsInv out0 st) :
    SlotsInv out0 (bumpRuleCount st r) :=
  slotsInv_frame h rfl rfl rfl

/-- The per-rule timer bump preserves the slot invariant. -/
theorem slots_bumpRuleTimer {out0 : AnalyzerOutput Tree}
    (st : LoopSt Tree) (r : Rule) (h : SlotsInv out0 st) :
    SlotsInv out0 (bumpRuleTimer st r) :=
  slotsInv_frame h rfl rfl rfl

/-- The overall-timer bump preserves the slot invariant. -/
theorem slots_bumpOverallTimer {out0 : AnalyzerOutput Tree}
    (st : LoopSt Tree) (h : SlotsInv out0 st) :
    SlotsInv out0 (bumpOverallTimer st) :=
  slotsInv_frame h rfl rfl rfl

/-- The user-rewriter passes preserve the slot invariant. -/
theorem slots_runUserRewriters (base : AnalyzerOptions Tree)
    {out0 : AnalyzerOutput Tree} (ev : Event)
    (hxor : exactlyOneRoot out0) :
    ∀ (l : List (Rewriter Tree)) (st : LoopSt Tree), SlotsInv out0 st →
      SlotsInv out0 (runUserRewriters base ev l st).2
  | [], st, h => h
  | rw :: rest, st, h => by
    have h1 := slots_ensureInit base st hxor h
    have h2 := slots_invoke rw ev (ensureInit base st) h1
    unfold runUserRewriters
    cases hp : (invokeRewriter rw ev (ensureInit base st)).1 with
    | error e => simpa [hp] using h2
    | ok u =>
      simp only [hp]
      exact slots_runUserRewriters base ev hxor rest _ h2

/-- One sweep of the convergence loop preserves the slot invariant. -/
theorem slots_runSweep (env : Env Tree) (base : AnalyzerOptions Tree)
    {out0 : AnalyzerOutput Tree} (applySet : Finset Rule)
    (hxor : exactlyOneRoot out0) :
    ∀ (lst : List Rule) (st : LoopSt Tree), SlotsInv out0 st →
      SlotsInv out0 (runSweep env base applySet lst st).2
  | [], st, h => h
  | r :: rest, st, h => by
    unfold runSweep
    by_cases hm : r ∈ applySet
    · simp only [hm, if_true]
      have h1 := slots_ensureInit base st hxor h
      cases hg : env.registryGet r with
      | none => exact h1
      | some rw =>
        have h2 := slots_bumpRuleCount (ensureInit base st) r h1
        have h3 := slots_invoke rw (.builtin r)
          (bumpRuleCount (ensureInit base st) r) h2
        have h4 := slots_bumpRuleTimer _ r h3
        cases hp : (invokeRewriter rw (.builtin r)
            (bumpRuleCount (ensureInit base st) r)).1 with
        | error e => simpa [hp] using h4
        | ok u =>
          simp only [hp]
          by_cases hl : (bumpRuleTimer (invokeRewriter rw (.builtin r)
              (bumpRuleCount (ensureInit base st) r)).2 r).last.isNone
          · simpa [hl] using h4
          · simp only [hl, Bool.false_eq_true, if_false]
            exact slots_runSweep env base applySet hxor rest _ h4
    · simp only [hm, if_false]
      exact slots_runSweep env base applySet hxor rest st h

/-- The convergence loop preserves the slot invariant. -/
theorem slots_runLoopAux (env : Env Tree) (base : AnalyzerOptions Tree)
    {out0 : AnalyzerOutput Tree} (hxor : exactlyOneRoot out0) :
    ∀ (fuel : Nat) (a : Finset Rule) (st : LoopSt Tree), SlotsInv out0 st →
      SlotsInv out0 (runLoopAux env base fuel a st).2
  | 0, a, st, h => h
  | fuel + 1, a, st, h => by
    unfold runLoopAux
    have h1 := slots_runSweep env base a hxor env.registrationOrder st h
    cases hp : (runSweep env base a env.registrationOrder st).1 with
    | error e => simpa [hp] using h1
    | ok u =>
      simp only [hp]
      cases hf : env.findRelevantRewriters
          (runSweep env base a env.registrationOrder st).2.last with
      | error e => simpa [hf] using h1
      | ok checker =>
        simp only [hf]
        by_cases hn : (base.enabled_rewrites ∩ checker).erase
            REWRITE_ANONYMIZATION = ∅
        · simpa [hn] using h1
        · simp only [hn, if_false]
          exact slots_runLoopAux env base hxor fuel _ _ h1

/-- `DetailsRel` is reflexive. -/
theorem detailsRel_self (st : LoopSt Tree) : DetailsRel st st :=
  fun _ => ⟨rfl, rfl⟩

/-- `DetailsRel` composes. -/
theorem detailsRel_trans {st1 st2 st3 : LoopSt Tree}
    (a : DetailsRel st1 st2) (b : DetailsRel st2 st3) :
    DetailsRel st1 st3 := by
  intro r
  have ha := a r
  have hb := b r
  omega

/-- States with equal per-rule details and equal traces are related. -/
theorem detailsRel_of_eq {st st' : LoopSt Tree}
    (hd : st'.output.runtime_info.rewriters_details =
      st.output.runtime_info.rewriters_details)
    (ht : st'.trace = st.trace) : DetailsRel st st' := by
  intro r
  rw [hd, ht]
  exact ⟨rfl, rfl⟩

/-- Counting built-in invocations distributes over trace concatenation. -/
theorem countB_append (t1 t2 : List Event) (r : Rule) :
    countBuiltinInvocations (t1 ++ t2) r =
      countBuiltinInvocations t1 r + countBuiltinInvocations t2 r :=
  List.countP_append _ _ _

/-- A user-rewriter event contributes no built-in invocation. -/
theorem countB_user (ev : Event) (r : Rule)
    (hev : ev = Event.userLeading ∨ ev = Event.userTrailing) :
    countBuiltinInvocations [ev] r = 0 := by
  rcases hev with h | h <;> subst h <;> rfl

/-- A built-in event contributes one invocation to its own rule and none
to the others. -/
theorem countB_builtin (r' r : Rule) :
    countBuiltinInvocations [Event.builtin r'] r =
      if r' = r then 1 else 0 := by
  by_cases h : r' = r
  · simp [countBuiltinInvocations, List.countP, List.countP.go, h]
  · have hb : (r' == r) = false := by
      simpa using h
    simp [countBuiltinInvocations, List.countP, List.countP.go, h, hb]

/-- Lazy initialization changes neither details nor trace. -/
theorem detailsRel_ensureInit (base : AnalyzerOptions Tree)
    (st : LoopSt Tree) : DetailsRel st (ensureInit base st) := by
  apply detailsRel_of_eq
  · unfold ensureInit
    cases hst : st.opts with
    | some o => rfl
    | none => simp [releaseOutputNode_runtime_info]
  · unfold ensureInit
    cases hst : st.opts with
    | some o => rfl
    | none => rfl

/-- Invoking a user rewriter leaves all per-rule details unchanged and
appends only a user event. -/
theorem detailsRel_invoke_user (rw : Rewriter Tree) (ev : Event)
    (st : LoopSt Tree)
    (hev : ev = Event.userLeading ∨ ev = Event.userTrailing) :
    DetailsRel st (invokeRewriter rw ev st).2 := by
  rcases hst : st.opts with _ | o
  · simp only [invokeRewriter, hst]
    exact detailsRel_self st
  · simp only [invokeRewriter, hst]
    cases hr : rw o.view st.last st.output.output_properties
        (if o.seqExternal = true then st.externalSeq else st.fallbackSeq) with
    | error e =>
      simp only [hr]
      intro r
      simp [countB_append, countB_user ev r hev]
    | ok u =>
      simp only [hr]
      intro r
      simp [countB_append, countB_user ev r hev]

/-- The count bump, the invocation (logging one built-in event) and the
timer bump of one sweep step advance rule `r`'s count and timer by one
and log exactly one built-in event of `r`, relating the states. -/
theorem detailsRel_sweepStep (rw : Rewriter Tree) (r : Rule)
    (st : LoopSt Tree) (hopts : st.opts ≠ none) :
    DetailsRel st
      (bumpRuleTimer
        (invokeRewriter rw (.builtin r) (bumpRuleCount st r)).2 r) := by
  rcases hst : st.opts with _ | o
  · exact absurd hst hopts
  · have hopts2 : (bumpRuleCount st r).opts = some o := by
      simp [bumpRuleCount, hst]
    have htr : (invokeRewriter rw (.builtin r)
        (bumpRuleCount st r)).2.trace = st.trace ++ [Event.builtin r] := by
      simp only [invokeRewriter, hopts2]
      cases hr : rw o.view (bumpRuleCount st r).last
          (bumpRuleCount st r).output.output_properties
          (if o.seqExternal = true then (bumpRuleCount st r).externalSeq
           else (bumpRuleCount st r).fallbackSeq) with
      | error e => simp only [hr]; rfl
      | ok u => simp only [hr]; rfl
    have hdet : (invokeRewriter rw (.builtin r)
          (bumpRuleCount st r)).2.output.runtime_info.rewriters_details =
        (bumpRuleCount st r).output.runtime_info.rewriters_details := by
      simp only [invokeRewriter, hopts2]
      cases hr : rw o.view (bumpRuleCount st r).last
          (bumpRuleCount st r).output.output_properties
          (if o.seqExternal = true then (bumpRuleCount st r).externalSeq
           else (bumpRuleCount st r).fallbackSeq) with
      | error e => simp only [hr]
      | ok u => simp only [hr]
    intro r''
    simp only [bumpRuleTimer]
    simp only [hdet, htr]
    simp only [bumpRuleCount, countB_append, countB_builtin]
    by_cases heq : r'' = r
    · subst heq
      refine ⟨?_, ?_⟩ <;> (simp; try omega)
    · have heq' : ¬ r = r'' := fun hh => heq hh.symm
      constructor <;> simp [heq, heq'] <;> omega

/-- The user-rewriter passes leave every per-rule detail unchanged:
modulo the user events they append, the details bookkeeping is
untouched. -/
theorem detailsRel_runUserRewriters (base : AnalyzerOptions Tree)
    (ev : Event)
    (hev : ev = Event.userLeading ∨ ev = Event.userTrailing) :
    ∀ (l : List (Rewriter Tree)) (st : LoopSt Tree),
      DetailsRel st (runUserRewriters base ev l st).2
  | [], st => detailsRel_self st
  | rw :: rest, st => by
    have h1 := detailsRel_ensureInit base st
    have h2 := detailsRel_invoke_user rw ev (ensureInit base st) hev
    unfold runUserRewriters
    cases hp : (invokeRewriter rw ev (ensureInit base st)).1 with
    | error e =>
      simp only [hp]
      exact detailsRel_trans h1 h2
    | ok u =>
      simp only [hp]
      exact detailsRel_trans (detailsRel_trans h1 h2)
        (detailsRel_runUserRewriters base ev hev rest _)

/-- One sweep updates each rule's count and timer exactly once per
built-in invocation it logs. -/
theorem detailsRel_runSweep (env : Env Tree) (base : AnalyzerOptions Tree)
    (applySet : Finset Rule) :
    ∀ (lst : List Rule) (st : LoopSt Tree),
      DetailsRel st (runSweep env base applySet lst st).2
  | [], st => detailsRel_self st
  | r :: rest, st => by
    unfold runSweep
    by_cases hm : r ∈ applySet
    · simp only [hm, if_true]
      have h1 := detailsRel_ensureInit base st
      cases hg : env.registryGet r with
      | none => exact h1
      | some rw =>
        have h2 := detailsRel_sweepStep rw r (ensureInit base st)
          (ensureInit_opts base st)
        cases hp : (invokeRewriter rw (.builtin r)
            (bumpRuleCount (ensureInit base st) r)).1 with
        | error e =>
          simp only [hp]
          exact detailsRel_trans h1 h2
        | ok u =>
          simp only [hp]
          by_cases hl : (bumpRuleTimer (invokeRewriter rw (.builtin r)
              (bumpRuleCount (ensureInit base st) r)).2 r).last.isNone
          · simpa [hl] using detailsRel_trans h1 h2
          · simp only [hl, Bool.false_eq_true, if_false]
            exact detailsRel_trans (detailsRel_trans h1 h2)
              (detailsRel_runSweep env base applySet rest _)
    · simp only [hm, if_false]
      exact detailsRel_runSweep env base applySet rest st

/-- The convergence loop updates each rule's count and timer exactly once
per built-in invocation it logs. -/
theorem detailsRel_runLoopAux (env : Env Tree)
    (base : AnalyzerOptions Tree) :
    ∀ (fuel : Nat) (a : Finset Rule) (st : LoopSt Tree),
      DetailsRel st (runLoopAux env base fuel a st).2
  | 0, a, st => detailsRel_self st
  | fuel + 1, a, st => by
    unfold runLoopAux
    have h1 := detailsRel_runSweep env base a env.registrationOrder st
    cases hp : (runSweep env base a env.registrationOrder st).1 with
    | error e => simpa [hp] using h1
    | ok u =>
      simp only [hp]
      cases hf : env.findRelevantRewriters
          (runSweep env base a env.registrationOrder st).2.last with
      | error e => simpa [hf] using h1
      | ok checker =>
        simp only [hf]
        by_cases hn : (base.enabled_rewrites ∩ checker).erase
            REWRITE_ANONYMIZATION = ∅
        · simpa [hn] using h1
        · simp only [hn, if_false]
          exact detailsRel_trans h1 (detailsRel_runLoopAux env base fuel _ _)

/-- The overall-timer bump leaves details and trace unchanged. -/
theorem detailsRel_bumpOverallTimer (st : LoopSt Tree) :
    DetailsRel st (bumpOverallTimer st) :=
  detailsRel_of_eq rfl rfl

/-- `Update` (install) touches only root slots and `max_column_id`. -/
theorem updateOutput_runtime_info (env : Env Tree)
    (out : AnalyzerOutput Tree) (root : Option Tree) (seqVal : Nat) :
    (updateOutput env out root seqVal).2.runtime_info = out.runtime_info := by
  unfold updateOutput
  cases root with
  | none => rfl
  | some t => by_cases h : env.isStatement t = true <;> simp [h]

/-- The final root-presence check returns its state unchanged. -/
theorem finalCheck_snd (st : LoopSt Tree) : (finalCheck st).2 = st := by
  unfold finalCheck
  split <;> rfl

/-- The fields-accessed sweep mutates only access bookkeeping: as a state
function it is the final check in both modes. -/
theorem markFieldsAndCheck_eq (base : AnalyzerOptions Tree)
    (st : LoopSt Tree) : markFieldsAndCheck base st = finalCheck st := by
  unfold markFieldsAndCheck
  split <;> rfl

/-- Installation, validation and the final check leave the per-rule
details and the trace unchanged. -/
theorem finishStage_details (env : Env Tree) (base : AnalyzerOptions Tree)
    (st : LoopSt Tree) :
    (finishStage env base st).2.output.runtime_info.rewriters_details =
      st.output.runtime_info.rewriters_details ∧
    (finishStage env base st).2.trace = st.trace := by
  unfold finishStage
  cases hopt : st.opts with
  | none => simp [markFieldsAndCheck_eq, finalCheck_snd]
  | some o =>
    cases hl : st.last with
    | none => simp [updateOutput, markFieldsAndCheck_eq, finalCheck_snd]
    | some t =>
      by_cases hi : env.isStatement t = true
      · by_cases hv : o.validate_resolved_ast = true
        · cases hvs : env.validateStatement t with
          | error e =>
            simp [updateOutput, hi, hv, hvs, bumpValidatorTimer,
              markFieldsAndCheck_eq, finalCheck_snd]
          | ok u =>
            simp [updateOutput, hi, hv, hvs, bumpValidatorTimer,
              markFieldsAndCheck_eq, finalCheck_snd]
        · simp [updateOutput, hi, hv, markFieldsAndCheck_eq, finalCheck_snd]
      · by_cases hv : o.validate_resolved_ast = true
        · cases hs : st.output.resolved_statement with
          | some t2 =>
            cases hvs : env.validateStatement t2 with
            | error e =>
              simp [updateOutput, hi, hv, hs, hvs, bumpValidatorTimer,
                markFieldsAndCheck_eq, finalCheck_snd]
            | ok u =>
              simp [updateOutput, hi, hv, hs, hvs, bumpValidatorTimer,
                markFieldsAndCheck_eq, finalCheck_snd]
          | none =>
            cases hve : env.validateExpr t with
            | error e =>
              simp [updateOutput, hi, hv, hs, hve, bumpValidatorTimer,
                markFieldsAndCheck_eq, finalCheck_snd]
            | ok u =>
              simp [updateOutput, hi, hv, hs, hve, bumpValidatorTimer,
                markFieldsAndCheck_eq, finalCheck_snd]
        · simp [updateOutput, hi, hv, markFieldsAndCheck_eq, finalCheck_snd]

/-- Installation, validation and the final check leave details and trace
unchanged, as a state relation. -/
theorem detailsRel_finishStage (env : Env Tree)
    (base : AnalyzerOptions Tree) (st : LoopSt Tree) :
    DetailsRel st (finishStage env base st).2 :=
  detailsRel_of_eq (finishStage_details env base st).1
    (finishStage_details env base st).2

/-- The post-loop tail (overall timer, trailing pass, finish) updates no
per-rule detail beyond the user events it logs. -/
theorem detailsRel_driverTail (env : Env Tree)
    (base : AnalyzerOptions Tree) (st : LoopSt Tree) :
    DetailsRel st (driverTail env base st).2 := by
  unfold driverTail
  have h1 := detailsRel_bumpOverallTimer st
  have h2 := detailsRel_runUserRewriters base .userTrailing (Or.inr rfl)
    base.trailing_rewriters (bumpOverallTimer st)
  cases hw : (runUserRewriters base .userTrailing base.trailing_rewriters
      (bumpOverallTimer st)).1 with
  | error e =>
    simp only [hw]
    exact detailsRel_trans h1 h2
  | ok u =>
    simp only [hw]
    exact detailsRel_trans (detailsRel_trans h1 h2)
      (detailsRel_finishStage env base _)

/-- Across the whole driver, each rule's count and timer advance exactly
by the number of built-in invocations of that rule it logged. -/
theorem detailsRel_inner (env : Env Tree) (base : AnalyzerOptions Tree)
    (out : AnalyzerOutput Tree) (extSeq : Nat) :
    DetailsRel (initLoopSt out extSeq)
      (internalRewriteResolvedAstNoConvertErrorLocation env base out
        extSeq).2 := by
  unfold internalRewriteResolvedAstNoConvertErrorLocation
  by_cases hroot : (nodeFromAnalyzerOutput out).isNone = true
  · simp only [hroot, if_true]
    exact detailsRel_self _
  · rw [if_neg hroot]
    cases hdet : detectStage env out.output_properties.relevant_rewrites
        (nodeFromAnalyzerOutput out) with
    | error e =>
      simp only [hdet]
      exact detailsRel_self _
    | ok detected =>
      simp only [hdet]
      by_cases h1 : (decide (detected = ∅) &&
          base.leading_rewriters.isEmpty &&
          base.trailing_rewriters.isEmpty) = true
      · rw [if_pos h1]
        exact detailsRel_bumpOverallTimer _
      · rw [if_neg h1]
        by_cases h2 : (decide (base.enabled_rewrites ∩ detected = ∅) &&
            base.leading_rewriters.isEmpty &&
            base.trailing_rewriters.isEmpty) = true
        · rw [if_pos h2]
          exact detailsRel_bumpOverallTimer _
        · rw [if_neg h2]
          have hlead := detailsRel_runUserRewriters base .userLeading
            (Or.inl rfl) base.leading_rewriters (initLoopSt out extSeq)
          cases hp : (runUserRewriters base .userLeading
              base.leading_rewriters (initLoopSt out extSeq)).1 with
          | error e =>
            simp only [hp]
            exact hlead
          | ok u =>
            simp only [hp]
            have hloop : DetailsRel
                (runUserRewriters base .userLeading base.leading_rewriters
                  (initLoopSt out extSeq)).2
                (if base.enabled_rewrites ∩ detected = ∅ then
                  ((.ok () : Status),
                    (runUserRewriters base .userLeading
                      base.leading_rewriters (initLoopSt out extSeq)).2)
                 else runLoopAux env base kMaxIterations
                   (base.enabled_rewrites ∩ detected)
                   (runUserRewriters base .userLeading
                     base.leading_rewriters (initLoopSt out extSeq)).2).2 := by
              by_cases ha : base.enabled_rewrites ∩ detected = ∅
              · rw [if_pos ha]
                exact detailsRel_self _
              · rw [if_neg ha]
                exact detailsRel_runLoopAux env base kMaxIterations _ _
            cases hq : (if base.enabled_rewrites ∩ detected = ∅ then
                ((.ok () : Status),
                  (runUserRewriters base .userLeading
                    base.leading_rewriters (initLoopSt out extSeq)).2)
               else runLoopAux env base kMaxIterations
                 (base.enabled_rewrites ∩ detected)
                 (runUserRewriters base .userLeading
                   base.leading_rewriters (initLoopSt out extSeq)).2).1 with
            | error e =>
              simp only [hq]
              exact detailsRel_trans hlead hloop
            | ok u2 =>
              simp only [hq]
              exact detailsRel_trans (detailsRel_trans hlead hloop)
                (detailsRel_driverTail env base _)

/-- Lazy initialization leaves the per-rule details unchanged. -/
theorem ensureInit_details_eq (base : AnalyzerOptions Tree)
    (st : LoopSt Tree) :
    (ensureInit base st).output.runtime_info.rewriters_details =
      st.output.runtime_info.rewriters_details := by
  unfold ensureInit
  cases hst : st.opts with
  | some o => rfl
  | none => simp [releaseOutputNode_runtime_info]

/-- Any single rewriter invocation leaves the per-rule details
unchanged (the loop's bumps happen outside the invocation itself). -/
theorem invoke_details_eq (rw : Rewriter Tree) (ev : Event)
    (st : LoopSt Tree) :
    (invokeRewriter rw ev st).2.output.runtime_info.rewriters_details =
      st.output.runtime_info.rewriters_details := by
  rcases hst : st.opts with _ | o
  · simp only [invokeRewriter, hst]
  · simp only [invokeRewriter, hst]
    cases hr : rw o.view st.last st.output.output_properties
        (if o.seqExternal = true then st.externalSeq else st.fallbackSeq)
      with
    | error e => simp only [hr]
    | ok u => simp only [hr]

/-- A user-rewriter pass leaves the per-rule details exactly unchanged,
whatever it does to the tree and properties. -/
theorem runUser_details_eq (base : AnalyzerOptions Tree) (ev : Event) :
    ∀ (l : List (Rewriter Tree)) (st : LoopSt Tree),
      (runUserRewriters base ev l st).2.output.runtime_info.rewriters_details
        = st.output.runtime_info.rewriters_details
  | [], st => rfl
  | rw :: rest, st => by
    unfold runUserRewriters
    cases hp : (invokeRewriter rw ev (ensureInit base st)).1 with
    | error e =>
      simp only [hp]
      rw [invoke_details_eq, ensureInit_details_eq]
    | ok u =>
      simp only [hp]
      rw [runUser_details_eq base ev rest _, invoke_details_eq,
        ensureInit_details_eq]

end InvariantLemmas

section ClaimC10

/-- C10: per-rule runtime details are updated exactly once per built-in
rewriter invocation inside the convergence loop and only there: across
the whole driver, each rule's invocation count and timer advance exactly
by the number of built-in invocations of that rule in the trace (user
events contribute nothing), and a leading/trailing user-rewriter pass by
itself leaves the per-rule details of every rule unchanged. -/
theorem c10_rewriter_details_accounting {Tree : Type} (env : Env Tree)
    (base : AnalyzerOptions Tree) (out : AnalyzerOutput Tree)
    (extSeq : Nat) (r : Rule) :
    (((internalRewriteResolvedAstNoConvertErrorLocation env base out
          extSeq).2.output.runtime_info.rewriters_details r).count =
        (out.runtime_info.rewriters_details r).count +
          countBuiltinInvocations
            (internalRewriteResolvedAstNoConvertErrorLocation env base out
              extSeq).2.trace r) ∧
    (RewriterDetails.timer_accumulations
        ((internalRewriteResolvedAstNoConvertErrorLocation env base out
          extSeq).2.output.runtime_info.rewriters_details r) =
        (out.runtime_info.rewriters_details r).timer_accumulations +
          countBuiltinInvocations
            (internalRewriteResolvedAstNoConvertErrorLocation env base out
              extSeq).2.trace r) ∧
    (∀ (ev : Event) (l : List (Rewriter Tree)) (st : LoopSt Tree),
      (runUserRewriters base ev l st).2.output.runtime_info.rewriters_details
          r = st.output.runtime_info.rewriters_details r) := by
  have h := detailsRel_inner env base out extSeq r
  have hz : countBuiltinInvocations (initLoopSt out extSeq).trace r = 0 :=
    rfl
  rw [hz] at h
  simp only [initLoopSt] at h
  refine ⟨by omega, by omega, ?_⟩
  intro ev l st
  rw [runUser_details_eq]

end ClaimC10

section XorLemmas

variable {Tree : Type}

/-- When the options bundle exists, the slots are empty and the current
tree is present, a successful finish installs the tree into exactly one
slot: the installed output's root is the current tree, and exactly one
slot is occupied. -/
theorem finishStage_install (env : Env Tree) (base : AnalyzerOptions Tree)
    (st : LoopSt Tree) (o : OptionsForRewrite) (t : Tree)
    (ho : st.opts = some o) (hl : st.last = some t)
    (hs : st.output.resolved_statement = none)
    (he : st.output.resolved_expr = none)
    (hok : (finishStage env base st).1 = .ok ()) :
    nodeFromAnalyzerOutput (finishStage env base st).2.output = some t ∧
    exactlyOneRoot (finishStage env base st).2.output := by
  unfold finishStage at hok ⊢
  by_cases hi : env.isStatement t = true
  · by_cases hv : o.validate_resolved_ast = true
    · cases hvs : env.validateStatement t with
      | error e =>
        simp [ho, hl, hi, hv, hvs, updateOutput, bumpValidatorTimer]
          at hok
      | ok u =>
        simp [ho, hl, hi, hv, hvs, updateOutput, bumpValidatorTimer,
          markFieldsAndCheck_eq, finalCheck, nodeFromAnalyzerOutput,
          exactlyOneRoot, he]
    · simp [ho, hl, hi, hv, updateOutput, markFieldsAndCheck_eq,
        finalCheck, nodeFromAnalyzerOutput, exactlyOneRoot, he]
  · by_cases hv : o.validate_resolved_ast = true
    · cases hve : env.validateExpr t with
      | error e =>
        simp [ho, hl, hi, hv, hve, hs, updateOutput, bumpValidatorTimer]
          at hok
      | ok u =>
        simp [ho, hl, hi, hv, hve, hs, updateOutput, bumpValidatorTimer,
          markFieldsAndCheck_eq, finalCheck, nodeFromAnalyzerOutput,
          exactlyOneRoot]
    · simp [ho, hl, hi, hv, hs, updateOutput, markFieldsAndCheck_eq,
        finalCheck, nodeFromAnalyzerOutput, exactlyOneRoot]

/-- A successful finish starting from a state satisfying the slot
invariant yields an output with exactly one root. -/
theorem finishStage_xor (env : Env Tree) (base : AnalyzerOptions Tree)
    {out0 : AnalyzerOutput Tree} (st : LoopSt Tree)
    (hxor : exactlyOneRoot out0) (hinv : SlotsInv out0 st)
    (hok : (finishStage env base st).1 = .ok ()) :
    exactlyOneRoot (finishStage env base st).2.output := by
  rcases hinv with ⟨hopt, hs, he⟩ | ⟨hopt, hs, he⟩
  · have hres : (finishStage env base st).2 = st := by
      unfold finishStage
      simp only [hopt, markFieldsAndCheck_eq, finalCheck_snd]
    rw [hres]
    rcases hxor with ⟨h1, h2⟩ | ⟨h1, h2⟩
    · exact Or.inl ⟨by rw [hs]; exact h1, by rw [he]; exact h2⟩
    · exact Or.inr ⟨by rw [hs]; exact h1, by rw [he]; exact h2⟩
  · rcases ho : st.opts with _ | o
    · exact absurd ho hopt
    · cases hl : st.last with
      | none =>
        exfalso
        unfold finishStage at hok
        simp [ho, hl, updateOutput] at hok
      | some t =>
        exact (finishStage_install env base st o t ho hl hs he hok).2

/-- A successful post-loop tail started under the slot invariant yields
an output with exactly one root. -/
theorem driverTail_xor (env : Env Tree) (base : AnalyzerOptions Tree)
    {out0 : AnalyzerOutput Tree} (st : LoopSt Tree)
    (hxor : exactlyOneRoot out0) (hinv : SlotsInv out0 st)
    (hok : (driverTail env base st).1 = .ok ()) :
    exactlyOneRoot (driverTail env base st).2.output := by
  unfold driverTail at hok ⊢
  have h2 := slots_runUserRewriters base .userTrailing hxor
    base.trailing_rewriters (bumpOverallTimer st)
    (slots_bumpOverallTimer st hinv)
  cases hw : (runUserRewriters base .userTrailing base.trailing_rewriters
      (bumpOverallTimer st)).1 with
  | error e =>
    simp only [hw] at hok
    exact absurd hok (by simp)
  | ok u =>
    simp only [hw] at hok ⊢
    exact finishStage_xor env base _ hxor h2 hok

/-- A successful driver run on an output with exactly one root yields an
output with exactly one root. -/
theorem inner_xor (env : Env Tree) (base : AnalyzerOptions Tree)
    (out : AnalyzerOutput Tree) (extSeq : Nat)
    (hxor : exactlyOneRoot out)
    (hok : (internalRewriteResolvedAstNoConvertErrorLocation env base out
      extSeq).1 = .ok ()) :
    exactlyOneRoot (internalRewriteResolvedAstNoConvertErrorLocation env
      base out extSeq).2.output := by
  unfold internalRewriteResolvedAstNoConvertErrorLocation at hok ⊢
  by_cases hroot : (nodeFromAnalyzerOutput out).isNone = true
  · rw [if_pos hroot] at hok
    exact absurd hok (by simp)
  · rw [if_neg hroot] at hok ⊢
    cases hdet : detectStage env out.output_properties.relevant_rewrites
        (nodeFromAnalyzerOutput out) with
    | error e =>
      simp only [hdet] at hok
      exact absurd hok (by simp)
    | ok detected =>
      simp only [hdet] at hok ⊢
      by_cases h1 : (decide (detected = ∅) &&
          base.leading_rewriters.isEmpty &&
          base.trailing_rewriters.isEmpty) = true
      · rw [if_pos h1]
        simpa [bumpOverallTimer, initLoopSt, exactlyOneRoot] using hxor
      · rw [if_neg h1] at hok ⊢
        by_cases h2 : (decide (base.enabled_rewrites ∩ detected = ∅) &&
            base.leading_rewriters.isEmpty &&
            base.trailing_rewriters.isEmpty) = true
        · rw [if_pos h2]
          simpa [bumpOverallTimer, initLoopSt, exactlyOneRoot] using hxor
        · rw [if_neg h2] at hok ⊢
          have hinv0 : SlotsInv out (initLoopSt out extSeq) :=
            Or.inl ⟨rfl, rfl, rfl⟩
          have hlead := slots_runUserRewriters base .userLeading hxor
            base.leading_rewriters (initLoopSt out extSeq) hinv0
          cases hp : (runUserRewriters base .userLeading
              base.leading_rewriters (initLoopSt out extSeq)).1 with
          | error e =>
            simp only [hp] at hok
            exact absurd hok (by simp)
          | ok u =>
            simp only [hp] at hok ⊢
            have hloop : SlotsInv out
                (if base.enabled_rewrites ∩ detected = ∅ then
                  ((.ok () : Status),
                    (runUserRewriters base .userLeading
                      base.leading_rewriters (initLoopSt out extSeq)).2)
                 else runLoopAux env base kMaxIterations
                   (base.enabled_rewrites ∩ detected)
                   (runUserRewriters base .userLeading
                     base.leading_rewriters (initLoopSt out extSeq)).2).2 := by
              by_cases ha : base.enabled_rewrites ∩ detected = ∅
              · rw [if_pos ha]
                exact hlead
              · rw [if_neg ha]
                exact slots_runLoopAux env base hxor kMaxIterations _ _ hlead
            cases hq : (if base.enabled_rewrites ∩ detected = ∅ then
                ((.ok () : Status),
                  (runUserRewriters base .userLeading
                    base.leading_rewriters (initLoopSt out extSeq)).2)
               else runLoopAux env base kMaxIterations
                 (base.enabled_rewrites ∩ detected)
                 (runUserRewriters base .userLeading
                   base.leading_rewriters (initLoopSt out extSeq)).2).1 with
            | error e =>
              simp only [hq] at hok
              exact absurd hok (by simp)
            | ok u2 =>
              simp only [hq] at hok ⊢
              exact driverTail_xor env base _ hxor hloop hok

end XorLemmas

section ClaimC7

/-- C7: whenever the top-level driver returns success on an analyzer
output satisfying the data-model invariant (exactly one root present),
the resulting output again has exactly one of the statement and
expression roots (exclusive or). -/
theorem c7_exactly_one_root {Tree : Type} (env : Env Tree)
    (base : AnalyzerOptions Tree) (sql : String) (out : AnalyzerOutput Tree)
    (extSeq : Nat) (hxor : exactlyOneRoot out)
    (hok : (internalRewriteResolvedAst env base sql out extSeq).1 =
      .ok ()) :
    exactlyOneRoot
      (internalRewriteResolvedAst env base sql out extSeq).2.output := by
  have hafter : ∀ hok2 : (internalRewriteResolvedAstAfterCallback env base
      sql out extSeq).1 = .ok (),
      exactlyOneRoot (internalRewriteResolvedAstAfterCallback env base sql
        out extSeq).2.output := by
    intro hok2
    unfold internalRewriteResolvedAstAfterCallback at hok2 ⊢
    by_cases hc : (decide (base.enabled_rewrites = ∅) ||
        (out.resolved_statement.isNone && out.resolved_expr.isNone)) = true
    · rw [if_pos hc]
      simpa [initLoopSt] using hxor
    · rw [if_neg hc] at hok2 ⊢
      cases hp : (internalRewriteResolvedAstNoConvertErrorLocation env base
          out extSeq).1 with
      | error e =>
        simp only [hp, convertErrorLocation] at hok2
        exact absurd hok2 (by simp)
      | ok u =>
        cases u
        exact inner_xor env base out extSeq hxor hp
  unfold internalRewriteResolvedAst at hok ⊢
  revert hok
  cases hcb : base.pre_rewrite_callback with
  | none =>
    intro hok
    exact hafter hok
  | some cb =>
    intro hok
    cases hcbr : cb out with
    | error e =>
      simp only [hcbr] at hok
      exact absurd hok (by simp)
    | ok u =>
      simp only [hcbr] at hok ⊢
      exact hafter hok

/-- C7 witness: a converging concrete run returns success with exactly
one root in the output. -/
theorem c7_exactly_one_root_witness :
    exactlyOneRoot
      (internalRewriteResolvedAst envConverge optsBase sampleSql out10
        0).2.output :=
  c7_exactly_one_root envConverge optsBase sampleSql out10 0
    (Or.inl (by simp [out10])) rfl

end ClaimC7

section ClaimC1

variable {Tree : Type}

/-- When every tree remains rewritable (the recomputed apply-set is never
empty) and every sweep succeeds, the convergence loop burns all its
allowed iterations and fails with the resource-exhaustion error naming
the bound. -/
theorem runLoopAux_exhausts (env : Env Tree) (base : AnalyzerOptions Tree)
    (hfind : ∀ x : Option Tree, ∃ S,
      env.findRelevantRewriters x = .ok S ∧
      ((base.enabled_rewrites ∩ S).erase REWRITE_ANONYMIZATION).Nonempty)
    (hsweep : ∀ (a : Finset Rule) (st : LoopSt Tree),
      (runSweep env base a env.registrationOrder st).1 = .ok ()) :
    ∀ (fuel : Nat) (a : Finset Rule) (st : LoopSt Tree),
      (runLoopAux env base fuel a st).1 =
        .error ⟨.resourceExhausted, maxIterationsMessage⟩
  | 0, a, st => rfl
  | fuel + 1, a, st => by
    unfold runLoopAux
    cases hp : (runSweep env base a env.registrationOrder st).1 with
    | error e =>
      have h := hsweep a st
      rw [hp] at h
      exact absurd h (by simp)
    | ok u =>
      simp only [hp]
      obtain ⟨S, hfS, hne⟩ :=
        hfind (runSweep env base a env.registrationOrder st).2.last
      simp only [hfS]
      rw [if_neg (Finset.nonempty_iff_ne_empty.mp hne)]
      exact runLoopAux_exhausts env base hfind hsweep fuel _ _

/-- C1 counterexample: a concrete non-convergent run (the checker always
reports the enabled rule relevant) returns the resource-exhausted error —
but the output is changed: its statement root, `some 10` on entry, has
been released and is absent on return, so the driver does not leave the
output unchanged on this failure. -/
theorem c1_output_changed_counterexample :
    (internalRewriteResolvedAstNoConvertErrorLocation envBase optsBase
        out10 0).1 =
      .error ⟨.resourceExhausted, maxIterationsMessage⟩ ∧
    out10.resolved_statement = some 10 ∧
    (internalRewriteResolvedAstNoConvertErrorLocation envBase optsBase
        out10 0).2.output.resolved_statement = none :=
  ⟨rfl, rfl, rfl⟩

/-- C1 (amended): on every input whose relevance checker keeps reporting
an enabled, applicable rule (other than anonymization) on every tree and
whose sweeps all succeed, the driver returns the resource-exhausted error
whose message names the limit 25; on this failure the install step is
never reached, so no rewritten tree is installed: each root slot of the
output is either its original value or empty (the root having been
released into the rewrite pipeline) — but the output is not unchanged in
general, since the root is released and the per-rule counters have
advanced. -/
theorem c1_iteration_cap (env : Env Tree) (base : AnalyzerOptions Tree)
    (out : AnalyzerOutput Tree) (extSeq : Nat) (t0 : Tree)
    (hxor : exactlyOneRoot out)
    (hroot : nodeFromAnalyzerOutput out = some t0)
    (hdbg : env.debugMode = false)
    (hdis : env.disableRewriterChecker = false)
    (hlead : base.leading_rewriters = [])
    (hfind : ∀ x : Option Tree, ∃ S,
      env.findRelevantRewriters x = .ok S ∧
      ((base.enabled_rewrites ∩ S).erase REWRITE_ANONYMIZATION).Nonempty)
    (hsweep : ∀ (a : Finset Rule) (st : LoopSt Tree),
      (runSweep env base a env.registrationOrder st).1 = .ok ()) :
    (internalRewriteResolvedAstNoConvertErrorLocation env base out
        extSeq).1 =
      .error ⟨.resourceExhausted, maxIterationsMessage⟩ ∧
    maxIterationsMessage = "Query exceeded configured maximum number of " ++
      "rewriter iterations (25) without converging." ∧
    ((internalRewriteResolvedAstNoConvertErrorLocation env base out
        extSeq).2.output.resolved_statement = out.resolved_statement ∨
      (internalRewriteResolvedAstNoConvertErrorLocation env base out
        extSeq).2.output.resolved_statement = none) ∧
    ((internalRewriteResolvedAstNoConvertErrorLocation env base out
        extSeq).2.output.resolved_expr = out.resolved_expr ∨
      (internalRewriteResolvedAstNoConvertErrorLocation env base out
        extSeq).2.output.resolved_expr = none) := by
  obtain ⟨S0, hf0, hne0⟩ := hfind (nodeFromAnalyzerOutput out)
  have hdet : detectStage env out.output_properties.relevant_rewrites
      (nodeFromAnalyzerOutput out) = .ok S0 := by
    simp [detectStage, hdbg, hdis, hf0]
  have hS0 : ¬ S0 = ∅ := by
    intro h
    rw [h] at hne0
    simp at hne0
  have happ : ¬ base.enabled_rewrites ∩ S0 = ∅ := by
    intro h
    rw [h] at hne0
    simp at hne0
  have hmain : internalRewriteResolvedAstNoConvertErrorLocation env base out
      extSeq =
      (.error ⟨.resourceExhausted, maxIterationsMessage⟩,
        (runLoopAux env base kMaxIterations
          (base.enabled_rewrites ∩ S0) (initLoopSt out extSeq)).2) := by
    unfold internalRewriteResolvedAstNoConvertErrorLocation
    rw [if_neg (by simp [hroot])]
    simp only [hdet]
    rw [if_neg (by simp [hS0])]
    rw [if_neg (by simp [happ])]
    rw [hlead]
    simp only [runUserRewriters]
    rw [if_neg happ]
    have hexh := runLoopAux_exhausts env base hfind hsweep kMaxIterations
      (base.enabled_rewrites ∩ S0) (initLoopSt out extSeq)
    simp only [hexh]
  have hinv : SlotsInv out (runLoopAux env base kMaxIterations
      (base.enabled_rewrites ∩ S0) (initLoopSt out extSeq)).2 :=
    slots_runLoopAux env base hxor kMaxIterations _ _
      (Or.inl ⟨rfl, rfl, rfl⟩)
  refine ⟨by rw [hmain], rfl, ?_, ?_⟩ <;>
    rw [hmain] <;>
    rcases hinv with ⟨_, hs, he⟩ | ⟨_, hs, he⟩ <;>
    simp [hs, he]

/-- C1 witness: `c1_iteration_cap` at the concrete non-convergent run. -/
theorem c1_iteration_cap_witness :
    (internalRewriteResolvedAstNoConvertErrorLocation envBase optsBase
        out10 0).1 =
      .error ⟨.resourceExhausted, maxIterationsMessage⟩ ∧
    maxIterationsMessage = "Query exceeded configured maximum number of " ++
      "rewriter iterations (25) without converging." ∧
    ((internalRewriteResolvedAstNoConvertErrorLocation envBase optsBase
        out10 0).2.output.resolved_statement = out10.resolved_statement ∨
      (internalRewriteResolvedAstNoConvertErrorLocation envBase optsBase
        out10 0).2.output.resolved_statement = none) ∧
    ((internalRewriteResolvedAstNoConvertErrorLocation envBase optsBase
        out10 0).2.output.resolved_expr = out10.resolved_expr ∨
      (internalRewriteResolvedAstNoConvertErrorLocation envBase optsBase
        out10 0).2.output.resolved_expr = none) := by
  refine c1_iteration_cap envBase optsBase out10 0 10 ?_ rfl rfl rfl rfl
    ?_ ?_
  · exact Or.inl (by simp [out10])
  · intro x
    exact ⟨{1}, rfl, by decide⟩
  · intro a st
    show (runSweep envBase optsBase a [1] st).1 = .ok ()
    by_cases h : (1 : Rule) ∈ a
    · rcases ho : (ensureInit optsBase st).opts with _ | o
      · exact absurd ho (ensureInit_opts optsBase st)
      · have hbo : (bumpRuleCount (ensureInit optsBase st) 1).opts = some o := by
          simp [bumpRuleCount, ho]
        unfold runSweep
        simp only [h, if_true]
        have hreg : envBase.registryGet 1 = some (constRewriter 7) := rfl
        simp only [hreg]
        simp only [invokeRewriter, hbo, constRewriter]
        simp [runSweep, bumpRuleTimer]
    · unfold runSweep
      simp only [h, if_false]
      rfl

end ClaimC1

section ClaimC2

variable {Tree : Type}

/-- Invoking a rewriter does not touch the options bundle. -/
theorem invoke_opts_eq (rw : Rewriter Tree) (ev : Event)
    (st : LoopSt Tree) : (invokeRewriter rw ev st).2.opts = st.opts := by
  rcases hst : st.opts with _ | o
  · simp only [invokeRewriter, hst]
  · simp only [invokeRewriter, hst]
    cases hr : rw o.view st.last st.output.output_properties
        (if o.seqExternal = true then st.externalSeq else st.fallbackSeq)
      with
    | error e => simp only [hr, hst]
    | ok u => simp only [hr, hst]

/-- After a successful sweep that either starts with tree and options
present or applies at least one rule, both the current tree and the
options bundle are present. -/
theorem runSweep_some (env : Env Tree) (base : AnalyzerOptions Tree) :
    ∀ (lst : List Rule) (a : Finset Rule) (st : LoopSt Tree),
      (runSweep env base a lst st).1 = .ok () →
      ((st.last ≠ none ∧ st.opts ≠ none) ∨ ∃ r ∈ lst, r ∈ a) →
      ((runSweep env base a lst st).2.last ≠ none ∧
        (runSweep env base a lst st).2.opts ≠ none)
  | [], a, st, hok, hside => by
    rcases hside with h | ⟨r, hr, _⟩
    · exact h
    · exact absurd hr (List.not_mem_nil r)
  | r :: rest, a, st, hok, hside => by
    unfold runSweep at hok ⊢
    by_cases hm : r ∈ a
    · simp only [hm, if_true] at hok ⊢
      cases hg : env.registryGet r with
      | none =>
        rw [hg] at hok
        exact absurd hok (by simp)
      | some rw2 =>
        simp only [hg] at hok ⊢
        cases hp : (invokeRewriter rw2 (.builtin r)
            (bumpRuleCount (ensureInit base st) r)).1 with
        | error e =>
          simp only [hp] at hok
          exact absurd hok (by simp)
        | ok u =>
          simp only [hp] at hok ⊢
          by_cases hl : (bumpRuleTimer (invokeRewriter rw2 (.builtin r)
              (bumpRuleCount (ensureInit base st) r)).2 r).last.isNone = true
          · rw [if_pos hl] at hok
            exact absurd hok (by simp)
          · rw [if_neg hl] at hok ⊢
            apply runSweep_some env base rest a _ hok
            left
            constructor
            · intro hnone
              exact hl (by rw [hnone]; rfl)
            · show (invokeRewriter rw2 (.builtin r)
                (bumpRuleCount (ensureInit base st) r)).2.opts ≠ none
              rw [invoke_opts_eq]
              show (ensureInit base st).opts ≠ none
              exact ensureInit_opts base st
    · simp only [hm, if_false] at hok ⊢
      apply runSweep_some env base rest a st hok
      rcases hside with h | ⟨r', hr', hra⟩
      · exact Or.inl h
      · rcases List.mem_cons.mp hr' with h | h
        · exact absurd (h ▸ hra) hm
        · exact Or.inr ⟨r', h, hra⟩

/-- When the convergence loop exits successfully, the final current tree
is present, the options bundle exists, and the recomputed apply-set on
the final tree — enabled rules intersected with the checker's set, minus
anonymization — is empty. -/
theorem runLoopAux_fixed_point (env : Env Tree)
    (base : AnalyzerOptions Tree)
    (hreg : ∀ r ∈ base.enabled_rewrites, r ∈ env.registrationOrder) :
    ∀ (fuel : Nat) (a : Finset Rule) (st : LoopSt Tree),
      a.Nonempty → a ⊆ base.enabled_rewrites →
      (runLoopAux env base fuel a st).1 = .ok () →
      ∃ t S, (runLoopAux env base fuel a st).2.last = some t ∧
        (runLoopAux env base fuel a st).2.opts ≠ none ∧
        env.findRelevantRewriters (some t) = .ok S ∧
        (base.enabled_rewrites ∩ S).erase REWRITE_ANONYMIZATION = ∅
  | 0, a, st, hne, hsub, hok => absurd hok (by simp [runLoopAux])
  | fuel + 1, a, st, hne, hsub, hok => by
    unfold runLoopAux at hok ⊢
    cases hp : (runSweep env base a env.registrationOrder st).1 with
    | error e =>
      simp only [hp] at hok
      exact absurd hok (by simp)
    | ok u =>
      simp only [hp] at hok ⊢
      obtain ⟨r0, hr0⟩ := hne
      have hsome := runSweep_some env base env.registrationOrder a st hp
        (Or.inr ⟨r0, hreg r0 (hsub hr0), hr0⟩)
      cases hf : env.findRelevantRewriters
          (runSweep env base a env.registrationOrder st).2.last with
      | error e =>
        simp only [hf] at hok
        exact absurd hok (by simp)
      | ok S =>
        simp only [hf] at hok ⊢
        by_cases hn : (base.enabled_rewrites ∩ S).erase
            REWRITE_ANONYMIZATION = ∅
        · simp only [if_pos hn] at hok ⊢
          rcases hlast : (runSweep env base a env.registrationOrder
              st).2.last with _ | t
          · exact absurd hlast hsome.1
          · rw [hlast] at hf
            exact ⟨t, S, rfl, hsome.2, hf, hn⟩
        · simp only [if_neg hn] at hok ⊢
          exact runLoopAux_fixed_point env base hreg fuel _ _
            (Finset.nonempty_iff_ne_empty.mpr hn)
            ((Finset.erase_subset _ _).trans Finset.inter_subset_left) hok

/-- With no trailing rewriters, the post-loop tail is exactly the finish
stage applied after the overall-timer accumulation. -/
theorem driverTail_no_trailing (env : Env Tree)
    (base : AnalyzerOptions Tree) (st : LoopSt Tree)
    (htrail : base.trailing_rewriters = []) :
    driverTail env base st = finishStage env base (bumpOverallTimer st) := by
  unfold driverTail
  rw [htrail]
  simp only [runUserRewriters]

/-- C2 counterexample: a run in which the convergence loop reaches its
fixed point but a trailing user rewriter then rewrites the tree to a root
(99) on which the checker again reports the enabled rule: the driver
returns success after running the loop (the trace shows the built-in
invocation), yet `find_relevant_rules(final root) ∩ enabled_rules` minus
anonymization is non-empty. -/
theorem c2_trailing_counterexample :
    (internalRewriteResolvedAstNoConvertErrorLocation envTrail optsTrail
        out10 0).1 = .ok () ∧
    (internalRewriteResolvedAstNoConvertErrorLocation envTrail optsTrail
        out10 0).2.trace = [Event.builtin 1, Event.userTrailing] ∧
    nodeFromAnalyzerOutput
      (internalRewriteResolvedAstNoConvertErrorLocation envTrail optsTrail
        out10 0).2.output = some 99 ∧
    envTrail.findRelevantRewriters (some 99) = .ok {1} ∧
    ¬ ((optsTrail.enabled_rewrites ∩ {1}).erase REWRITE_ANONYMIZATION
        = ∅) :=
  ⟨rfl, rfl, rfl, rfl, by decide⟩

/-- C2 (amended): the apply-set recomputation is as the code does it
(intersection with the enabled set, then unconditional removal of the
anonymization rule, looping exactly while non-empty); and whenever the
driver returns success after running the convergence loop **and no
trailing user rewriters are configured**, the final root satisfies
`find_relevant_rules(root) ∩ enabled_rules \ {anonymization} = ∅`. -/
theorem c2_fixed_point_on_success (env : Env Tree)
    (base : AnalyzerOptions Tree) (out : AnalyzerOutput Tree)
    (extSeq : Nat) (D : Finset Rule)
    (hxor : exactlyOneRoot out)
    (hdet : detectStage env out.output_properties.relevant_rewrites
      (nodeFromAnalyzerOutput out) = .ok D)
    (happly : (base.enabled_rewrites ∩ D).Nonempty)
    (hreg : ∀ r ∈ base.enabled_rewrites, r ∈ env.registrationOrder)
    (htrail : base.trailing_rewriters = [])
    (hok : (internalRewriteResolvedAstNoConvertErrorLocation env base out
      extSeq).1 = .ok ()) :
    ∃ t S, nodeFromAnalyzerOutput
        (internalRewriteResolvedAstNoConvertErrorLocation env base out
          extSeq).2.output = some t ∧
      env.findRelevantRewriters (some t) = .ok S ∧
      (base.enabled_rewrites ∩ S).erase REWRITE_ANONYMIZATION = ∅ := by
  have hroot : (nodeFromAnalyzerOutput out).isNone = false := by
    unfold nodeFromAnalyzerOutput
    rcases hxor with ⟨h1, h2⟩ | ⟨h1, h2⟩
    · cases hs : out.resolved_statement with
      | none => exact absurd hs h1
      | some t => rfl
    · rw [h1]
      cases he : out.resolved_expr with
      | none => exact absurd he h2
      | some t => rfl
  have hD : ¬ D = ∅ := by
    intro h
    rw [h] at happly
    simp at happly
  have happne : ¬ base.enabled_rewrites ∩ D = ∅ :=
    Finset.nonempty_iff_ne_empty.mp happly
  unfold internalRewriteResolvedAstNoConvertErrorLocation at hok ⊢
  rw [if_neg (by simp [hroot])] at hok ⊢
  simp only [hdet] at hok ⊢
  rw [if_neg (by simp [hD])] at hok ⊢
  rw [if_neg (by simp [happne])] at hok ⊢
  have hinv0 : SlotsInv out (initLoopSt out extSeq) :=
    Or.inl ⟨rfl, rfl, rfl⟩
  have hlead := slots_runUserRewriters base .userLeading hxor
    base.leading_rewriters (initLoopSt out extSeq) hinv0
  cases hp : (runUserRewriters base .userLeading base.leading_rewriters
      (initLoopSt out extSeq)).1 with
  | error e =>
    simp only [hp] at hok
    exact absurd hok (by simp)
  | ok u =>
    simp only [hp] at hok ⊢
    rw [if_neg happne] at hok ⊢
    cases hq : (runLoopAux env base kMaxIterations
        (base.enabled_rewrites ∩ D)
        (runUserRewriters base .userLeading base.leading_rewriters
          (initLoopSt out extSeq)).2).1 with
    | error e =>
      simp only [hq] at hok
      exact absurd hok (by simp)
    | ok u2 =>
      simp only [hq] at hok ⊢
      obtain ⟨t, S, hlast, hopts, hfS, hempty⟩ :=
        runLoopAux_fixed_point env base hreg kMaxIterations
          (base.enabled_rewrites ∩ D) _ happly Finset.inter_subset_left hq
      rw [driverTail_no_trailing env base _ htrail] at hok ⊢
      have hinvL := slots_runLoopAux env base hxor kMaxIterations
        (base.enabled_rewrites ∩ D) _ hlead
      rcases hinvL with ⟨ho, _, _⟩ | ⟨_, hs, he⟩
      · exact absurd ho hopts
      · rcases hoo : (runLoopAux env base kMaxIterations
            (base.enabled_rewrites ∩ D)
            (runUserRewriters base .userLeading base.leading_rewriters
              (initLoopSt out extSeq)).2).2.opts with _ | o
        · exact absurd hoo hopts
        · have hinst := finishStage_install env base _ o t
            (show (bumpOverallTimer _).opts = some o from hoo)
            (show (bumpOverallTimer _).last = some t from hlast)
            (show (bumpOverallTimer _).output.resolved_statement = none
              from hs)
            (show (bumpOverallTimer _).output.resolved_expr = none from he)
            hok
          exact ⟨t, S, hinst.1, hfS, hempty⟩

/-- C2 witness: `c2_fixed_point_on_success` at a concrete converging
run. -/
theorem c2_fixed_point_on_success_witness :
    ∃ t S, nodeFromAnalyzerOutput
        (internalRewriteResolvedAstNoConvertErrorLocation envConverge
          optsBase out10 0).2.output = some t ∧
      envConverge.findRelevantRewriters (some t) = .ok S ∧
      (optsBase.enabled_rewrites ∩ S).erase REWRITE_ANONYMIZATION = ∅ :=
  c2_fixed_point_on_success envConverge optsBase out10 0 {1}
    (Or.inl (by simp [out10])) rfl (by decide) (by decide) rfl rfl

end ClaimC2

end ZetaSqlRewrite
